import Mathlib

/-!
Shallow embedding of the starmap-api TypeScript client (solauto/starmap-api)
and proofs about its escrow-chain management, binary codec, record decoding
and fee estimation.  Definitions are translated from `src/src/*.ts`
(`bindings.ts`, `utils.ts`, `state.ts`, `instructions.ts`, `constants.ts`).
Asynchronous RPC reads are modelled by an explicit `Connection` record, and
the two unbounded `while` loops are modelled with an explicit fuel
parameter (running out of fuel is a distinguished error that the real code,
which loops forever, never produces).
-/

set_option maxRecDepth 8000

namespace Starmap

/-- Errors surfaced by the client.  The TypeScript code throws `Error`
objects with fixed message strings; the spec names these conditions
`InvalidIdentifierLength` (message "Maximum name length is 255 chars."),
`InvalidChainTriple` (message "Invalid index; ..."), and `CorruptChain`
(message "Null pointer in escrow chain").  `numberuTooLarge` models the
`Numberu32 too large` / `Numberu64 too large` assertion throws, and
`borshError` models a `deserializeUnchecked` throw on a short buffer.
`outOfFuel` is the fuel-exhaustion artifact of the loop embedding. -/
inductive Err where
  | invalidIdentifierLength
  | invalidChainTriple
  | corruptChain
  | numberuTooLarge
  | borshError
  | outOfFuel
deriving DecidableEq

instance {e a : Type} [DecidableEq e] [DecidableEq a] :
    DecidableEq (Except e a) := fun x y =>
  match x, y with
  | .error x1, .error y1 =>
    match decEq x1 y1 with
    | isTrue h => isTrue (by rw [h])
    | isFalse h => isFalse (fun hh => h (Except.error.injEq x1 y1 ▸ hh))
  | .error _, .ok _ => isFalse (fun hh => Except.noConfusion hh)
  | .ok _, .error _ => isFalse (fun hh => Except.noConfusion hh)
  | .ok x1, .ok y1 =>
    match decEq x1 y1 with
    | isTrue h => isTrue (by rw [h])
    | isFalse h => isFalse (fun hh => h (Except.ok.injEq x1 y1 ▸ hh))

/-- A Solana public key.  `raw` is a key given by its 32 bytes; `pda` is a
program-derived address.  Modelled from the spec: §4.2 guarantees that the
ledger's `findProgramAddress` derivation is a pure deterministic function
of its seed list and program id and that distinct derivation inputs yield
distinct addresses, so a derived address is modelled as the (injective)
constructor application on its inputs rather than as the 32-byte digest the
external primitive would produce. -/
inductive Pubkey where
  | raw (bytes : List Nat)
  | pda (seeds : List (List Nat)) (programId : Pubkey)
deriving DecidableEq

/-- Source: `PublicKey.findProgramAddress(seeds, programId)` (first
component).  See the `Pubkey.pda` doc comment for the modelling. -/
def findProgramAddress (seeds : List (List Nat)) (programId : Pubkey) : Pubkey :=
  .pda seeds programId

/-- The base58 alphabet used by Solana / bitcoin-style keys. -/
def base58Alphabet : String :=
  "123456789ABCDEFGHJKLMNPQRSTUVWXYZabcdefghijkmnopqrstuvwxyz"

/-- Numeric value of one base58 digit. -/
def base58DigitValue (c : Char) : Nat :=
  base58Alphabet.toList.indexOf c

/-- Value of a base58 string read as a big-endian base-58 numeral. -/
def base58DecodeNat (s : List Char) : Nat :=
  s.foldl (fun acc c => acc * 58 + base58DigitValue c) 0

/-- Fixed-width big-endian byte representation of a natural number. -/
def natToBEBytesFixed (w n : Nat) : List Nat :=
  (List.range w).map (fun i => n / 256 ^ (w - 1 - i) % 256)

/-- Source: `new PublicKey(<base58 string>)`: the 32-byte key whose
big-endian value is the base58 numeral. -/
def pubkeyFromBase58 (s : String) : Pubkey :=
  .raw (natToBEBytesFixed 32 (base58DecodeNat s.toList))

/-- Source constant `STARMAP_PROGRAM_ID` in `constants.ts` / `bindings.ts`. -/
def STARMAP_PROGRAM_ID : Pubkey :=
  pubkeyFromBase58 "starsfMtotCRZ2F7Bn5U2U7auwguBSJRPX3mhbwafoY"

/-- Source constant `TREASURY_ACCOUNT` in `constants.ts`. -/
def TREASURY_ACCOUNT : Pubkey :=
  pubkeyFromBase58 "u8mnnXiQLYhVdjuE9wSzEpicpfgaM83ohw6SpGcFg5k"

/-- Source constant `CONFIG_ACCOUNT` in `constants.ts`. -/
def CONFIG_ACCOUNT : Pubkey :=
  pubkeyFromBase58 "J3w6cXha2dihL628GPMHFtGkqPzEr8KCFF6c6SLfcexJ"

/-- Source constant `RUST_DEFAULT_PUBLIC_KEY` in `constants.ts`. -/
def RUST_DEFAULT_PUBLIC_KEY : Pubkey :=
  pubkeyFromBase58 "11111111111111111111111111111111"

/-- `PublicKey.default` from `@solana/web3.js`: the all-zero 32-byte key. -/
def pubkeyDefault : Pubkey :=
  .raw (List.replicate 32 0)

/-- `SystemProgram.programId` from `@solana/web3.js` (the all-zero key,
base58 "11111111111111111111111111111111"). -/
def systemProgramId : Pubkey :=
  pubkeyFromBase58 "11111111111111111111111111111111"

/-- Source: `isDefault` in `utils.ts`:
`key.equals(PublicKey.default) || key.equals(RUST_DEFAULT_PUBLIC_KEY)`. -/
def isDefault (key : Pubkey) : Bool :=
  key = pubkeyDefault || key = RUST_DEFAULT_PUBLIC_KEY

/-- Source constant `U32_MAX = 0xffffffff`. -/
def U32_MAX : Nat := 0xffffffff

/-- Source constant `MAX_NAME_LENGTH = 255`. -/
def MAX_NAME_LENGTH : Nat := 255

/-- Source enum `AccountType.Record = 1`. -/
def AccountType.Record : Nat := 1

/-- Source enum `AccountType.Escrow = 2`. -/
def AccountType.Escrow : Nat := 2

/-- Source enum `AccountType.Config = 3`. -/
def AccountType.Config : Nat := 3

/-- Source enum `RecordType.Invalid = 0`. -/
def RecordType.Invalid : Nat := 0

/-- Source enum `RecordType.Phone = 1`. -/
def RecordType.Phone : Nat := 1

/-- Source enum `RecordType.Email = 2`. -/
def RecordType.Email : Nat := 2

/-- Structural helper for `natToBEBytesMin`: the first argument is a fuel
bound on the digit count (any fuel at least the value itself suffices). -/
def natToBEBytesMinAux : Nat → Nat → List Nat
  | _, 0 => []
  | 0, _ + 1 => []
  | fuel + 1, n + 1 =>
    natToBEBytesMinAux fuel ((n + 1) / 256) ++ [(n + 1) % 256]

/-- Minimal big-endian byte list of a natural number (empty for zero);
this is the digit list produced by `BN.toArray()` before the
zero-special-case. -/
def natToBEBytesMin (n : Nat) : List Nat :=
  natToBEBytesMinAux n n

lemma natToBEBytesMinAux_congr :
    ∀ n f1 f2, n ≤ f1 → n ≤ f2 →
      natToBEBytesMinAux f1 n = natToBEBytesMinAux f2 n := by
  intro n
  induction n using Nat.strong_induction_on with
  | _ n ih =>
    intro f1 f2 h1 h2
    match n, f1, f2 with
    | 0, f1, f2 =>
      cases f1 <;> cases f2 <;> rfl
    | m + 1, f1 + 1, f2 + 1 =>
      show natToBEBytesMinAux f1 ((m + 1) / 256) ++ [(m + 1) % 256]
        = natToBEBytesMinAux f2 ((m + 1) / 256) ++ [(m + 1) % 256]
      have hd : (m + 1) / 256 < m + 1 :=
        Nat.div_lt_self (by omega) (by norm_num)
      rw [ih ((m + 1) / 256) hd f1 f2 (by omega) (by omega)]

/-- `BN.toArray()`: minimal big-endian bytes, `[0]` for zero. -/
def bnToArray (n : Nat) : List Nat :=
  if n = 0 then [0] else natToBEBytesMin n

/-- Source: `Numberu32.toBuffer` in `utils.ts`: reverse the big-endian
`BN.toArray()` digits (little-endian), return as-is at exactly 4 bytes,
throw `Numberu32 too large` above 4 bytes, and zero-pad (at the end, i.e.
in the high bytes of the little-endian form) below 4 bytes. -/
def numberu32ToBuffer (n : Nat) : Except Err (List Nat) :=
  let b := (bnToArray n).reverse
  if b.length = 4 then .ok b
  else if 4 ≤ b.length then .error .numberuTooLarge
  else .ok (b ++ List.replicate (4 - b.length) 0)

/-- Source: `Numberu64.toBuffer` in `utils.ts`, same shape at 8 bytes. -/
def numberu64ToBuffer (n : Nat) : Except Err (List Nat) :=
  let b := (bnToArray n).reverse
  if b.length = 8 then .ok b
  else if 8 ≤ b.length then .error .numberuTooLarge
  else .ok (b ++ List.replicate (8 - b.length) 0)

/-- Specification-side 4-byte little-endian form of a `u32`. -/
def u32le (n : Nat) : List Nat :=
  [n % 256, n / 2 ^ 8 % 256, n / 2 ^ 16 % 256, n / 2 ^ 24 % 256]

lemma natToBEBytesMin_zero : natToBEBytesMin 0 = [] := rfl

lemma natToBEBytesMin_step (n : Nat) (h : n ≠ 0) :
    natToBEBytesMin n = natToBEBytesMin (n / 256) ++ [n % 256] := by
  obtain ⟨m, rfl⟩ : ∃ m, n = m + 1 := ⟨n - 1, by omega⟩
  show natToBEBytesMinAux (m + 1) (m + 1) = _
  have hd : (m + 1) / 256 < m + 1 := Nat.div_lt_self (by omega) (by norm_num)
  show natToBEBytesMinAux m ((m + 1) / 256) ++ [(m + 1) % 256] = _
  rw [natToBEBytesMinAux_congr ((m + 1) / 256) m ((m + 1) / 256) (by omega)
    (by omega)]
  rfl

lemma natToBEBytesMin_small (n : Nat) (h0 : n ≠ 0) (h : n < 256) :
    natToBEBytesMin n = [n] := by
  rw [natToBEBytesMin_step n h0, Nat.div_eq_of_lt h, natToBEBytesMin_zero,
    Nat.mod_eq_of_lt h]
  simp

/-- For values in `u32` range, `Numberu32.toBuffer` is the 4-byte
little-endian encoding. -/
theorem numberu32ToBuffer_eq (n : Nat) (h : n < 2 ^ 32) :
    numberu32ToBuffer n = .ok (u32le n) := by
  rcases Nat.eq_zero_or_pos n with h0 | h0
  · subst h0
    simp [numberu32ToBuffer, bnToArray, u32le, List.replicate]
  rcases Nat.lt_or_ge n 256 with h1 | h1
  · have hb : bnToArray n = [n] := by
      simp [bnToArray, Nat.pos_iff_ne_zero.mp h0,
        natToBEBytesMin_small n (Nat.pos_iff_ne_zero.mp h0) h1]
    have e1 : n / 2 ^ 8 = 0 := Nat.div_eq_of_lt (by omega)
    have e2 : n / 2 ^ 16 = 0 := Nat.div_eq_of_lt (by omega)
    have e3 : n / 2 ^ 24 = 0 := Nat.div_eq_of_lt (by omega)
    simp [numberu32ToBuffer, hb, u32le, Nat.mod_eq_of_lt h1, e1, e2, e3,
      List.replicate]
    omega
  rcases Nat.lt_or_ge n (2 ^ 16) with h2 | h2
  · have hq0 : n / 256 ≠ 0 := by omega
    have hqlt : n / 256 < 256 := Nat.div_lt_of_lt_mul (by omega)
    have hb : bnToArray n = [n / 256, n % 256] := by
      simp [bnToArray, Nat.pos_iff_ne_zero.mp h0,
        natToBEBytesMin_step n (Nat.pos_iff_ne_zero.mp h0),
        natToBEBytesMin_small _ hq0 hqlt]
    have e2 : n / 2 ^ 16 = 0 := Nat.div_eq_of_lt (by omega)
    have e3 : n / 2 ^ 24 = 0 := Nat.div_eq_of_lt (by omega)
    have hqm : n / 256 % 256 = n / 256 := Nat.mod_eq_of_lt hqlt
    simp [numberu32ToBuffer, hb, u32le, e2, e3, hqm, List.replicate]
    omega
  rcases Nat.lt_or_ge n (2 ^ 24) with h3 | h3
  · have hq0 : n / 256 / 256 ≠ 0 := by omega
    have hq2lt : n / 256 / 256 < 256 := by omega
    have hb : bnToArray n = [n / 256 / 256, n / 256 % 256, n % 256] := by
      simp [bnToArray, Nat.pos_iff_ne_zero.mp h0,
        natToBEBytesMin_step n (Nat.pos_iff_ne_zero.mp h0),
        natToBEBytesMin_step (n / 256) (by omega),
        natToBEBytesMin_small _ hq0 hq2lt]
    have e3 : n / 2 ^ 24 = 0 := Nat.div_eq_of_lt (by omega)
    have hdd : n / 256 / 256 = n / 2 ^ 16 := by
      rw [Nat.div_div_eq_div_mul]; norm_num
    have hqm : n / 2 ^ 16 % 256 = n / 2 ^ 16 := Nat.mod_eq_of_lt (by rw [← hdd]; exact hq2lt)
    simp [numberu32ToBuffer, hb, u32le, e3, hdd, hqm, List.replicate]
    omega
  · have hq0 : n / 256 / 256 / 256 ≠ 0 := by omega
    have hq3lt : n / 256 / 256 / 256 < 256 := by omega
    have hb : bnToArray n =
        [n / 256 / 256 / 256, n / 256 / 256 % 256, n / 256 % 256, n % 256] := by
      simp [bnToArray, Nat.pos_iff_ne_zero.mp h0,
        natToBEBytesMin_step n (Nat.pos_iff_ne_zero.mp h0),
        natToBEBytesMin_step (n / 256) (by omega),
        natToBEBytesMin_step (n / 256 / 256) (by omega),
        natToBEBytesMin_small _ hq0 hq3lt]
    simp [numberu32ToBuffer, hb, u32le]
    omega

/-! ### SHA-256 (FIPS 180-4), modelling `createHash(sha256)` from node:crypto -/

/-- 32-bit right rotation (arguments below `2 ^ 32`). -/
def rotateRight32 (n x : Nat) : Nat :=
  ((x >>> n) ||| (x <<< (32 - n))) % 2 ^ 32

/-- SHA-256 `Ch(x, y, z)`; `¬x` is complement within 32 bits. -/
def sha256Ch (x y z : Nat) : Nat :=
  (x &&& y) ^^^ ((x ^^^ 0xffffffff) &&& z)

/-- SHA-256 `Maj(x, y, z)`. -/
def sha256Maj (x y z : Nat) : Nat :=
  (x &&& y) ^^^ (x &&& z) ^^^ (y &&& z)

/-- The big sigma-0 function of SHA-256. -/
def sigmaBig0 (x : Nat) : Nat :=
  rotateRight32 2 x ^^^ rotateRight32 13 x ^^^ rotateRight32 22 x

/-- The big sigma-1 function of SHA-256. -/
def sigmaBig1 (x : Nat) : Nat :=
  rotateRight32 6 x ^^^ rotateRight32 11 x ^^^ rotateRight32 25 x

/-- The small sigma-0 function of SHA-256. -/
def sigmaSmall0 (x : Nat) : Nat :=
  rotateRight32 7 x ^^^ rotateRight32 18 x ^^^ (x >>> 3)

/-- The small sigma-1 function of SHA-256. -/
def sigmaSmall1 (x : Nat) : Nat :=
  rotateRight32 17 x ^^^ rotateRight32 19 x ^^^ (x >>> 10)

/-- The 64 SHA-256 round constants. -/
def sha256K : List Nat :=
  [1116352408, 1899447441, 3049323471, 3921009573,
   961987163, 1508970993, 2453635748, 2870763221,
   3624381080, 310598401, 607225278, 1426881987,
   1925078388, 2162078206, 2614888103, 3248222580,
   3835390401, 4022224774, 264347078, 604807628,
   770255983, 1249150122, 1555081692, 1996064986,
   2554220882, 2821834349, 2952996808, 3210313671,
   3336571891, 3584528711, 113926993, 338241895,
   666307205, 773529912, 1294757372, 1396182291,
   1695183700, 1986661051, 2177026350, 2456956037,
   2730485921, 2820302411, 3259730800, 3345764771,
   3516065817, 3600352804, 4094571909, 275423344,
   430227734, 506948616, 659060556, 883997877,
   958139571, 1322822218, 1537002063, 1747873779,
   1955562222, 2024104815, 2227730452, 2361852424,
   2428436474, 2756734187, 3204031479, 3329325298]

def sha256H0 : List Nat :=
  [1779033703, 3144134277, 1013904242, 2773480762,
   1359893119, 2600822924, 528734635, 1541459225]

/-- SHA-256 message padding: append `0x80`, zeros to 56 mod 64, and the
big-endian 64-bit bit length. -/
def sha256Pad (msg : List Nat) : List Nat :=
  let l := msg.length
  let z := (120 - (l + 1) % 64) % 64
  msg ++ [0x80] ++ List.replicate z 0 ++ natToBEBytesFixed 8 (8 * l)

/-- Split a list into consecutive chunks of `n` elements. -/
def chunksOf (n : Nat) (l : List α) : List (List α) :=
  match l, n with
  | [], _ => []
  | _, 0 => []
  | x :: xs, m + 1 => (x :: xs).take (m + 1) :: chunksOf (m + 1) ((x :: xs).drop (m + 1))
termination_by l.length
decreasing_by
  simp [List.length_drop]
  omega

/-- Read a byte list as big-endian 32-bit words. -/
def bytesToWordsBE (l : List Nat) : List Nat :=
  (chunksOf 4 l).map (fun c =>
    c.getD 0 0 * 2 ^ 24 + c.getD 1 0 * 2 ^ 16 + c.getD 2 0 * 2 ^ 8 + c.getD 3 0)

/-- Extend the 16 words of one block to the 64-word message schedule. -/
def sha256Schedule (w : List Nat) : List Nat :=
  (List.range 48).foldl (fun w i =>
    w ++ [(sigmaSmall1 (w.getD (i + 14) 0) + w.getD (i + 9) 0 +
           sigmaSmall0 (w.getD (i + 1) 0) + w.getD i 0) % 2 ^ 32]) w

/-- One SHA-256 round on the 8-word working state. -/
def sha256Round (s : List Nat) (kw : Nat × Nat) : List Nat :=
  let a := s.getD 0 0
  let b := s.getD 1 0
  let c := s.getD 2 0
  let d := s.getD 3 0
  let e := s.getD 4 0
  let f := s.getD 5 0
  let g := s.getD 6 0
  let h := s.getD 7 0
  let t1 := (h + sigmaBig1 e + sha256Ch e f g + kw.1 + kw.2) % 2 ^ 32
  let t2 := (sigmaBig0 a + sha256Maj a b c) % 2 ^ 32
  [(t1 + t2) % 2 ^ 32, a, b, c, (d + t1) % 2 ^ 32, e, f, g]

/-- SHA-256 compression of one 64-byte block into the hash state. -/
def sha256Compress (hs : List Nat) (block : List Nat) : List Nat :=
  let w := sha256Schedule (bytesToWordsBE block)
  let s := (sha256K.zip w).foldl sha256Round hs
  [(hs.getD 0 0 + s.getD 0 0) % 2 ^ 32,
   (hs.getD 1 0 + s.getD 1 0) % 2 ^ 32,
   (hs.getD 2 0 + s.getD 2 0) % 2 ^ 32,
   (hs.getD 3 0 + s.getD 3 0) % 2 ^ 32,
   (hs.getD 4 0 + s.getD 4 0) % 2 ^ 32,
   (hs.getD 5 0 + s.getD 5 0) % 2 ^ 32,
   (hs.getD 6 0 + s.getD 6 0) % 2 ^ 32,
   (hs.getD 7 0 + s.getD 7 0) % 2 ^ 32]

/-- SHA-256 of a byte string, as 32 bytes. -/
def sha256 (msg : List Nat) : List Nat :=
  ((chunksOf 64 (sha256Pad msg)).foldl sha256Compress sha256H0).flatMap
    (natToBEBytesFixed 4)

lemma sha256Compress_length (hs block : List Nat) :
    (sha256Compress hs block).length = 8 := rfl

lemma sha256_foldl_length (blocks : List (List Nat)) (hs : List Nat)
    (h : hs.length = 8) : (blocks.foldl sha256Compress hs).length = 8 := by
  induction blocks generalizing hs with
  | nil => simpa using h
  | cons b bs ih => exact ih _ (sha256Compress_length hs b)

lemma natToBEBytesFixed_length (w n : Nat) : (natToBEBytesFixed w n).length = w := by
  simp [natToBEBytesFixed]

lemma flatMap_be4_length (ws : List Nat) :
    (ws.flatMap (natToBEBytesFixed 4)).length = 4 * ws.length := by
  induction ws with
  | nil => simp
  | cons x xs ih =>
    simp [List.flatMap_cons, natToBEBytesFixed_length, ih]
    ring

/-- The SHA-256 digest always has exactly 32 bytes. -/
theorem sha256_length (msg : List Nat) : (sha256 msg).length = 32 := by
  have h8 : ((chunksOf 64 (sha256Pad msg)).foldl sha256Compress sha256H0).length = 8 :=
    sha256_foldl_length _ _ rfl
  show (((chunksOf 64 (sha256Pad msg)).foldl sha256Compress sha256H0).flatMap
    (natToBEBytesFixed 4)).length = 32
  rw [flatMap_be4_length, h8]

/-! ### JavaScript strings, UTF-8/UTF-16, and `getHashedName` -/

/-- A JavaScript string, modelled as its list of Unicode code points
(assumed well-formed, i.e. no lone surrogates). -/
abbrev JsString := List Nat

/-- UTF-8 encoding of one Unicode code point (RFC 3629). -/
def utf8EncodeChar (c : Nat) : List Nat :=
  if c < 0x80 then [c]
  else if c < 0x800 then
    [0xc0 ||| (c >>> 6), 0x80 ||| (c &&& 0x3f)]
  else if c < 0x10000 then
    [0xe0 ||| (c >>> 12), 0x80 ||| ((c >>> 6) &&& 0x3f), 0x80 ||| (c &&& 0x3f)]
  else
    [0xf0 ||| (c >>> 18), 0x80 ||| ((c >>> 12) &&& 0x3f),
     0x80 ||| ((c >>> 6) &&& 0x3f), 0x80 ||| (c &&& 0x3f)]

/-- UTF-8 encoding of a string; this is what
`createHash(sha256).update(name, utf8)` hashes. -/
def utf8Encode (s : JsString) : List Nat :=
  s.flatMap utf8EncodeChar

/-- The number of UTF-16 code units of a string: this is what the
JavaScript `name.length` property returns (code points at or above
`0x10000` occupy a surrogate pair, i.e. two units). -/
def utf16Length (s : JsString) : Nat :=
  (s.map (fun c => if c < 0x10000 then 1 else 2)).sum

/-- Source: `getHashedName` in `utils.ts` / `bindings.ts`:
throws when `name.length > MAX_NAME_LENGTH`, otherwise returns the SHA-256
digest of the UTF-8 bytes of the name. -/
def getHashedName (name : JsString) : Except Err (List Nat) :=
  if utf16Length name > MAX_NAME_LENGTH then .error .invalidIdentifierLength
  else .ok (sha256 (utf8Encode name))

/-! ### Account data, borsh decoding and the RPC connection -/

/-- The data and owning program of an on-chain account, as returned by
`connection.getAccountInfo`. -/
structure AccountInfo where
  owner : Pubkey
  data : List Nat
deriving DecidableEq

/-- The injected ledger-RPC collaborator: a read-only view of accounts plus
the rent-exemption oracle.  `none` models a missing account. -/
structure Connection where
  getAccountInfo : Pubkey → Option AccountInfo
  getMinimumBalanceForRentExemption : Nat → Nat

/-- Little-endian `u32` read at offset `i` of a byte list (borsh). -/
def borshU32At (d : List Nat) (i : Nat) : Nat :=
  d.getD i 0 + 256 * d.getD (i + 1) 0 + 65536 * d.getD (i + 2) 0 +
    16777216 * d.getD (i + 3) 0

/-- Little-endian `u16` read at offset `i` of a byte list (borsh). -/
def borshU16At (d : List Nat) (i : Nat) : Nat :=
  d.getD i 0 + 256 * d.getD (i + 1) 0

/-- A 32-byte key read at offset `i` of a byte list (borsh `[32]` field,
passed through `new PublicKey(bytes)`). -/
def borshPubkeyAt (d : List Nat) (i : Nat) : Pubkey :=
  .raw ((d.drop i).take 32)

/-- Source: `StarStateFlags` in `state.ts`. -/
structure StarStateFlags where
  locked : Bool
  paid_to_verify : Bool
  paid_to_assign : Bool
  contested : Bool
  disable_notifications : Bool
deriving DecidableEq

/-- Source: class `StarState` in `state.ts` — the decoded Name Record
(borsh fields `versionMajor`, `recordType`, `state`, `signatory`, `owner`)
together with the derived fields filled in by the constructor and by
`StarState.retrieve`. -/
structure StarState where
  versionMajor : Nat
  recordType : Nat
  state : Nat
  signatory : Pubkey
  owner : Pubkey
  routingInfo : List Nat
  flags : StarStateFlags
  isPresent : Bool
  isAuthorized : Bool
  isReadyToAssign : Bool
  isAssignedAndValid : Bool
  invalidReason : String
deriving DecidableEq

/-- Source: `StarState.HEADER_LEN = 96`. -/
def StarState.HEADER_LEN : Nat := 96

/-- Source: `StarState.MIN_VERSION = 1`. -/
def StarState.MIN_VERSION : Nat := 1

/-- Source: the `StarState` constructor in `state.ts`: stores the borsh
fields and computes the `flags` bitfield from `state`
(`(obj.state & (1 << i)) > 0` for bits 0..4); the derived booleans start
`false` and `invalidReason` starts at its field initializer. -/
def mkStarState (versionMajor recordType state : Nat)
    (signatory owner : Pubkey) : StarState where
  versionMajor := versionMajor
  recordType := recordType
  state := state
  signatory := signatory
  owner := owner
  routingInfo := []
  flags :=
    { locked := decide (0 < state &&& (1 <<< 0))
      paid_to_verify := decide (0 < state &&& (1 <<< 1))
      paid_to_assign := decide (0 < state &&& (1 <<< 2))
      contested := decide (0 < state &&& (1 <<< 3))
      disable_notifications := decide (0 < state &&& (1 <<< 4)) }
  isPresent := false
  isAuthorized := false
  isReadyToAssign := false
  isAssignedAndValid := false
  invalidReason := "Need to call StarState.retrieve(...)"

/-- Source: `StarState.empty(invalidReason)`. -/
def StarState.empty (invalidReason : String) : StarState :=
  { mkStarState 0 0 0 (.raw (List.replicate 32 0)) (.raw (List.replicate 32 0)) with
      invalidReason := invalidReason }

/-- Borsh `deserializeUnchecked(StarState.schema, ...)`: `u8` version,
`u8` record type, `u16` state, 32-byte signatory, 32-byte owner (68-byte
header); a shorter buffer throws. -/
def starStateDeserialize (d : List Nat) : Option StarState :=
  if d.length < 68 then none
  else some (mkStarState (d.getD 0 0) (d.getD 1 0) (borshU16At d 2)
    (borshPubkeyAt d 4) (borshPubkeyAt d 36))

/-- Source: `StarState.retrieve` in `state.ts`: absent or foreign-owned
accounts produce `empty` sentinel records; otherwise the account data is
deserialized, the routing payload is sliced off past `HEADER_LEN`, the
derived predicates are computed, and the version check precedes the
unowned-owner (`isDefault`) check. -/
def StarState.retrieve (connection : Connection) (nameAccountKey : Pubkey)
    (programId : Pubkey) : Except Err StarState :=
  match connection.getAccountInfo nameAccountKey with
  | none => .ok (StarState.empty "Record account does not exist")
  | some accountInfo =>
    if accountInfo.owner ≠ programId then
      .ok (StarState.empty "Record account exists but is not initialized")
    else
      match starStateDeserialize accountInfo.data with
      | none => .error .borshError
      | some res0 =>
        let res :=
          { res0 with
              routingInfo := accountInfo.data.drop StarState.HEADER_LEN
              isPresent := true
              isAuthorized := res0.flags.paid_to_assign && res0.flags.paid_to_verify
              isReadyToAssign := res0.flags.paid_to_assign && !res0.flags.paid_to_verify }
        if res.versionMajor < StarState.MIN_VERSION then
          let reason := "Invalid version: " ++ toString res.versionMajor ++ "; " ++
            toString StarState.MIN_VERSION ++ " required."
          .ok { res with invalidReason := reason }
        else if isDefault res.owner then
          .ok { res with invalidReason := "Unowned record" }
        else
          .ok { res with isAssignedAndValid := true }

/-- Source: class `EscrowRootState` in `state.ts` (borsh fields
`versionMajor`, `next_index`, `name_account`). -/
structure EscrowRootState where
  versionMajor : Nat
  next_index : Nat
  name_account : Pubkey
deriving DecidableEq

/-- Borsh decode of `EscrowRootState` (1 + 4 + 32 bytes). -/
def escrowRootDeserialize (d : List Nat) : Option EscrowRootState :=
  if d.length < 37 then none
  else some
    { versionMajor := d.getD 0 0
      next_index := borshU32At d 1
      name_account := borshPubkeyAt d 5 }

/-- Source: `EscrowRootState.retrieve` in `state.ts`: `null` when the
account is absent or not owned by the program, otherwise the borsh
decode. -/
def EscrowRootState.retrieve (connection : Connection) (accountKey : Pubkey)
    (programId : Pubkey) : Except Err (Option EscrowRootState) :=
  match connection.getAccountInfo accountKey with
  | none => .ok none
  | some accountInfo =>
    if accountInfo.owner ≠ programId then .ok none
    else
      match escrowRootDeserialize accountInfo.data with
      | none => .error .borshError
      | some r => .ok (some r)

/-- Source: class `EscrowState` in `state.ts` (borsh fields
`versionMajor`, `next_index`, `name_account`, `index`, `prev_index`,
`sender`, `mint`, plus the derived `address`). -/
structure EscrowState where
  versionMajor : Nat
  next_index : Nat
  name_account : Pubkey
  index : Nat
  prev_index : Nat
  sender : Pubkey
  mint : Pubkey
  address : Pubkey
deriving DecidableEq

/-- Source: `EscrowState.MIN_VERSION = 1`. -/
def EscrowState.MIN_VERSION : Nat := 1

/-- Source: `EscrowState.empty(index, prevIndex, nextIndex, address)`. -/
def EscrowState.empty (index prevIndex nextIndex : Nat) (address : Pubkey) :
    EscrowState where
  versionMajor := EscrowState.MIN_VERSION
  next_index := nextIndex
  name_account := pubkeyDefault
  index := index
  prev_index := prevIndex
  sender := pubkeyDefault
  mint := pubkeyDefault
  address := address

/-- Borsh decode of `EscrowState`
(1 + 4 + 32 + 4 + 4 + 32 + 32 = 109 bytes). -/
def escrowStateDeserialize (d : List Nat) : Option EscrowState :=
  if d.length < 109 then none
  else some
    { versionMajor := d.getD 0 0
      next_index := borshU32At d 1
      name_account := borshPubkeyAt d 5
      index := borshU32At d 37
      prev_index := borshU32At d 41
      sender := borshPubkeyAt d 45
      mint := borshPubkeyAt d 77
      address := pubkeyDefault }

/-- Source: `EscrowState.retrieve` in `state.ts`: `null` when the account
is absent or not owned by the program, otherwise the borsh decode with
`address` set to the fetched key. -/
def EscrowState.retrieve (connection : Connection) (accountKey : Pubkey)
    (programId : Pubkey) : Except Err (Option EscrowState) :=
  match connection.getAccountInfo accountKey with
  | none => .ok none
  | some accountInfo =>
    if accountInfo.owner ≠ programId then .ok none
    else
      match escrowStateDeserialize accountInfo.data with
      | none => .error .borshError
      | some record => .ok (some { record with address := accountKey })

/-- Source: class `ConfigState` in `state.ts` (borsh `u8` version and 13
`u32` fee fields, plus the derived `address`). -/
structure ConfigState where
  versionMajor : Nat
  name_verify_phone_lamports : Nat
  name_verify_email_lamports : Nat
  name_verify_stars_lamports : Nat
  name_assign_phone_lamports : Nat
  name_assign_email_lamports : Nat
  name_assign_stars_lamports : Nat
  name_transfer_lamports : Nat
  name_delete_lamports : Nat
  escrow_create_lamports : Nat
  escrow_withdraw_lamports : Nat
  escrow_delete_lamports : Nat
  notify_phone_lamports : Nat
  notify_email_lamports : Nat
  address : Pubkey
deriving DecidableEq

/-- Source: `ConfigState.default(address)`: the compiled-in default fee
table. -/
def ConfigState.default (address : Pubkey) : ConfigState where
  versionMajor := 1
  name_verify_phone_lamports := 1000000
  name_verify_email_lamports := 1000000
  name_verify_stars_lamports := 1000000
  name_assign_phone_lamports := 0
  name_assign_email_lamports := 0
  name_assign_stars_lamports := 0
  name_transfer_lamports := 0
  name_delete_lamports := 0
  escrow_create_lamports := 0
  escrow_withdraw_lamports := 0
  escrow_delete_lamports := 0
  notify_phone_lamports := 1000000
  notify_email_lamports := 25000
  address := address

/-- Borsh decode of `ConfigState` (1 + 13 × 4 = 53 bytes). -/
def configStateDeserialize (d : List Nat) : Option ConfigState :=
  if d.length < 53 then none
  else some
    { versionMajor := d.getD 0 0
      name_verify_phone_lamports := borshU32At d 1
      name_verify_email_lamports := borshU32At d 5
      name_verify_stars_lamports := borshU32At d 9
      name_assign_phone_lamports := borshU32At d 13
      name_assign_email_lamports := borshU32At d 17
      name_assign_stars_lamports := borshU32At d 21
      name_transfer_lamports := borshU32At d 25
      name_delete_lamports := borshU32At d 29
      escrow_create_lamports := borshU32At d 33
      escrow_withdraw_lamports := borshU32At d 37
      escrow_delete_lamports := borshU32At d 41
      notify_phone_lamports := borshU32At d 45
      notify_email_lamports := borshU32At d 49
      address := pubkeyDefault }

/-- Source: `ConfigState.retrieve` in `state.ts`. -/
def ConfigState.retrieve (connection : Connection) (accountKey : Pubkey)
    (programId : Pubkey) : Except Err (Option ConfigState) :=
  match connection.getAccountInfo accountKey with
  | none => .ok none
  | some accountInfo =>
    if accountInfo.owner ≠ programId then .ok none
    else
      match configStateDeserialize accountInfo.data with
      | none => .error .borshError
      | some record => .ok (some { record with address := accountKey })

/-! ### Address derivation and escrow-chain traversal -/

/-- Source: `getNameAccountKey` in `bindings.ts`: PDA from
`[[AccountType.Record], [recordType], hashedName]`. -/
def getNameAccountKey (hashedName : List Nat) (recordType : Nat) : Pubkey :=
  findProgramAddress [[AccountType.Record], [recordType], hashedName]
    STARMAP_PROGRAM_ID

/-- Source: `getEscrowAccountKey` in `bindings.ts` / `utils.ts`: PDA from
`[[AccountType.Escrow], [recordType], hashedName, u32(index)]`; the
`Numberu32` conversion throws above `2 ^ 32 - 1`. -/
def getEscrowAccountKey (hashedName : List Nat) (recordType : Nat)
    (index : Nat) : Except Err Pubkey := do
  let indexBuffer ← numberu32ToBuffer index
  return findProgramAddress
    [[AccountType.Escrow], [recordType], hashedName, indexBuffer]
    STARMAP_PROGRAM_ID

/-- The canonical value of `getEscrowAccountKey` for an in-range index. -/
def escrowKeyOf (hashedName : List Nat) (recordType : Nat) (index : Nat) :
    Pubkey :=
  findProgramAddress
    [[AccountType.Escrow], [recordType], hashedName, u32le index]
    STARMAP_PROGRAM_ID

lemma getEscrowAccountKey_eq (hashedName : List Nat) (recordType index : Nat)
    (h : index < 2 ^ 32) :
    getEscrowAccountKey hashedName recordType index =
      .ok (escrowKeyOf hashedName recordType index) := by
  simp [getEscrowAccountKey, numberu32ToBuffer_eq index h, escrowKeyOf]

lemma natToBEBytesMin_lt (n : Nat) : n < 256 ^ (natToBEBytesMin n).length := by
  induction n using Nat.strong_induction_on with
  | _ n ih =>
    by_cases h0 : n = 0
    · subst h0; simp [natToBEBytesMin_zero]
    · rw [natToBEBytesMin_step n h0]
      have hlt : n / 256 < n := Nat.div_lt_self (by omega) (by norm_num)
      have := ih (n / 256) hlt
      simp only [List.length_append, List.length_cons, List.length_nil]
      have h256 : 256 ^ ((natToBEBytesMin (n / 256)).length + 1) =
          256 ^ (natToBEBytesMin (n / 256)).length * 256 := by ring
      rw [Nat.add_zero, h256]
      omega

lemma numberu32ToBuffer_err (n : Nat) (h : 2 ^ 32 ≤ n) :
    numberu32ToBuffer n = .error .numberuTooLarge := by
  have h0 : n ≠ 0 := by omega
  have hlt : n < 256 ^ (natToBEBytesMin n).length := natToBEBytesMin_lt n
  have hlen : 5 ≤ (natToBEBytesMin n).length := by
    by_contra hc
    push_neg at hc
    have hle : 256 ^ (natToBEBytesMin n).length ≤ 256 ^ 4 :=
      Nat.pow_le_pow_right (by norm_num) (by omega)
    have : n < 2 ^ 32 := by
      calc n < 256 ^ (natToBEBytesMin n).length := hlt
        _ ≤ 256 ^ 4 := hle
        _ = 2 ^ 32 := by norm_num
    omega
  unfold numberu32ToBuffer bnToArray
  rw [if_neg h0]
  simp only [List.length_reverse]
  rw [if_neg (by omega), if_pos (by omega)]

lemma getEscrowAccountKey_ok (hashedName : List Nat) (recordType index : Nat)
    (k : Pubkey) (h : getEscrowAccountKey hashedName recordType index = .ok k) :
    index < 2 ^ 32 ∧ k = escrowKeyOf hashedName recordType index := by
  by_cases hi : index < 2 ^ 32
  · refine ⟨hi, ?_⟩
    rw [getEscrowAccountKey_eq hashedName recordType index hi] at h
    exact ((Except.ok.injEq _ _).mp h).symm
  · exfalso
    rw [getEscrowAccountKey,
      numberu32ToBuffer_err index (by omega)] at h
    simp [Except.bind] at h

/-- Source: `getEscrowRootAccount` in `bindings.ts` / `utils.ts`:
retrieve the root (index 0) escrow account. -/
def getEscrowRootAccount (connection : Connection) (hashedName : List Nat)
    (recordType : Nat) : Except Err (Option EscrowRootState) := do
  let key ← getEscrowAccountKey hashedName recordType 0
  EscrowRootState.retrieve connection key STARMAP_PROGRAM_ID

/-- Source: `getEscrowAccount` in `bindings.ts` / `utils.ts`: retrieve the
escrow node at `index`. -/
def getEscrowAccount (connection : Connection) (hashedName : List Nat)
    (recordType index : Nat) : Except Err (Option EscrowState) := do
  let key ← getEscrowAccountKey hashedName recordType index
  EscrowState.retrieve connection key STARMAP_PROGRAM_ID

/-- The result of fetching the node at `index` through the derived key;
equal to `getEscrowAccount` whenever the index is in `u32` range. -/
def nodeResult (connection : Connection) (hashedName : List Nat)
    (recordType index : Nat) : Except Err (Option EscrowState) :=
  EscrowState.retrieve connection (escrowKeyOf hashedName recordType index)
    STARMAP_PROGRAM_ID

/-- The result of fetching the escrow root through the derived key. -/
def rootResult (connection : Connection) (hashedName : List Nat)
    (recordType : Nat) : Except Err (Option EscrowRootState) :=
  EscrowRootState.retrieve connection (escrowKeyOf hashedName recordType 0)
    STARMAP_PROGRAM_ID

lemma getEscrowRootAccount_eq (connection : Connection) (hashedName : List Nat)
    (recordType : Nat) :
    getEscrowRootAccount connection hashedName recordType =
      rootResult connection hashedName recordType := by
  simp [getEscrowRootAccount, rootResult,
    getEscrowAccountKey_eq hashedName recordType 0 (by norm_num),
    Bind.bind, Except.bind]

/-- Source: the `while` loop of `getEscrowAccounts` in `bindings.ts`
(lines 1069–1080): while `index < U32_MAX`, fetch the node at `index`
(a missing node throws `Null pointer in escrow chain`), append it when no
sender filter is given or its `sender` matches, and continue at its
`next_index`.  The accumulator carries the `accounts` array. -/
def getEscrowAccountsLoop (connection : Connection) (hashedName : List Nat)
    (recordType : Nat) (senderFilter : Option Pubkey) :
    Nat → Nat → List EscrowState → Except Err (List EscrowState)
  | 0, _, _ => .error .outOfFuel
  | fuel + 1, index, accounts =>
    if index < U32_MAX then do
      let account? ← getEscrowAccount connection hashedName recordType index
      match account? with
      | none => .error .corruptChain
      | some account =>
        let accounts :=
          match senderFilter with
          | none => accounts ++ [account]
          | some f => if account.sender = f then accounts ++ [account] else accounts
        getEscrowAccountsLoop connection hashedName recordType senderFilter
          fuel account.next_index accounts
    else .ok accounts

/-- Source: `getEscrowAccounts` in `bindings.ts` (lines 1060–1082): start
at the root's `next_index` (or at the terminal sentinel when there is no
root) and walk the chain via each node's `next_index`. -/
def getEscrowAccounts (connection : Connection) (hashedName : List Nat)
    (recordType : Nat) (senderFilter : Option Pubkey) (fuel : Nat) :
    Except Err (List EscrowState) := do
  let root ← getEscrowRootAccount connection hashedName recordType
  let index :=
    match root with
    | none => U32_MAX
    | some root => root.next_index
  getEscrowAccountsLoop connection hashedName recordType senderFilter fuel
    index []

/-- Source: the `while` loop of `getEscrowAccounts` in `utils.ts`
(lines 288–298): same fetch and missing-node throw, but it appends every
node unconditionally and advances with `index += 1` instead of following
the node's `next_index`. -/
def utilsGetEscrowAccountsLoop (connection : Connection) (hashedName : List Nat)
    (recordType : Nat) :
    Nat → Nat → List EscrowState → Except Err (List EscrowState)
  | 0, _, _ => .error .outOfFuel
  | fuel + 1, index, accounts =>
    if index < U32_MAX then do
      let account? ← getEscrowAccount connection hashedName recordType index
      match account? with
      | none => .error .corruptChain
      | some account =>
        utilsGetEscrowAccountsLoop connection hashedName recordType
          fuel (index + 1) (accounts ++ [account])
    else .ok accounts

/-- Source: `getEscrowAccounts` in `utils.ts` (lines 280–300). -/
def utilsGetEscrowAccounts (connection : Connection) (hashedName : List Nat)
    (recordType : Nat) (fuel : Nat) : Except Err (List EscrowState) := do
  let root ← getEscrowRootAccount connection hashedName recordType
  let index :=
    match root with
    | none => U32_MAX
    | some root => root.next_index
  utilsGetEscrowAccountsLoop connection hashedName recordType fuel index []

/-- Source: the `while (true)` loop of `getNextAvailableEscrowAccount` in
`bindings.ts` (lines 1104–1122): fetch the node at `index` (missing node
throws `Null pointer in escrow chain`), increment `index`, derive the key
at the incremented index, and return the empty slot
`(index, node.index, node.next_index)` at that key as soon as the fetched
node's `next_index` exceeds the incremented index. -/
def getNextAvailableEscrowAccountLoop (connection : Connection)
    (hashedName : List Nat) (recordType : Nat) :
    Nat → Nat → Except Err EscrowState
  | 0, _ => .error .outOfFuel
  | fuel + 1, index => do
    let _accountKey ← getEscrowAccountKey hashedName recordType index
    let accountState? ← EscrowState.retrieve connection _accountKey
      STARMAP_PROGRAM_ID
    match accountState? with
    | none => .error .corruptChain
    | some accountState =>
      let index := index + 1
      let accountKey ← getEscrowAccountKey hashedName recordType index
      if accountState.next_index > index then
        .ok (EscrowState.empty index accountState.index accountState.next_index
          accountKey)
      else
        getNextAvailableEscrowAccountLoop connection hashedName recordType
          fuel index

/-- Source: `getNextAvailableEscrowAccount` in `bindings.ts`
(lines 1084–1123): no root means the first slot `(1, 0, U32_MAX)`;
a root pointing past 1 means inserting at 1 before the root's successor;
otherwise walk from index 1. -/
def getNextAvailableEscrowAccount (connection : Connection)
    (hashedName : List Nat) (recordType : Nat) (fuel : Nat) :
    Except Err EscrowState := do
  let rootState? ← getEscrowRootAccount connection hashedName recordType
  match rootState? with
  | none =>
    let accountKey ← getEscrowAccountKey hashedName recordType 1
    return EscrowState.empty 1 0 U32_MAX accountKey
  | some rootState =>
    if rootState.next_index > 1 then do
      let accountKey ← getEscrowAccountKey hashedName recordType 1
      return EscrowState.empty 1 0 rootState.next_index accountKey
    else
      getNextAvailableEscrowAccountLoop connection hashedName recordType fuel 1

/-- Source: the `while (true)` loop of `getNextAvailableEscrowAccount` in
`utils.ts` (lines 325–339): identical walk, except that the key paired
with the returned slot is the key derived for the index *before* the
increment, i.e. the address of the last existing node rather than of the
candidate slot.  The `EscrowState.empty` call there passes no address
(the 3-argument legacy form); the unobserved `address` field is modelled
as the default key. -/
def utilsGetNextAvailableEscrowAccountLoop (connection : Connection)
    (hashedName : List Nat) (recordType : Nat) :
    Nat → Nat → Except Err (EscrowState × Pubkey)
  | 0, _ => .error .outOfFuel
  | fuel + 1, index => do
    let accountKey ← getEscrowAccountKey hashedName recordType index
    let accountState? ← EscrowState.retrieve connection accountKey
      STARMAP_PROGRAM_ID
    match accountState? with
    | none => .error .corruptChain
    | some accountState =>
      let index := index + 1
      if accountState.next_index > index then
        .ok (EscrowState.empty index accountState.index accountState.next_index
          pubkeyDefault, accountKey)
      else
        utilsGetNextAvailableEscrowAccountLoop connection hashedName recordType
          fuel index

/-- Source: `getNextAvailableEscrowAccount` in `utils.ts` (lines 302–340):
returns an `[EscrowState, PublicKey]` pair; in the insert-after-root case
the paired key is derived at `rootState.next_index` rather than at the
returned slot index 1. -/
def utilsGetNextAvailableEscrowAccount (connection : Connection)
    (hashedName : List Nat) (recordType : Nat) (fuel : Nat) :
    Except Err (EscrowState × Pubkey) := do
  let rootState? ← getEscrowRootAccount connection hashedName recordType
  match rootState? with
  | none =>
    let accountKey ← getEscrowAccountKey hashedName recordType 1
    return (EscrowState.empty 1 0 U32_MAX pubkeyDefault, accountKey)
  | some rootState =>
    if rootState.next_index > 1 then do
      let accountKey ← getEscrowAccountKey hashedName recordType
        rootState.next_index
      return (EscrowState.empty 1 0 rootState.next_index pubkeyDefault,
        accountKey)
    else
      utilsGetNextAvailableEscrowAccountLoop connection hashedName recordType
        fuel 1

/-! ### Instruction encoding (`instructions.ts`) -/

/-- The 32 bytes of a key (`PublicKey.toBuffer()`).  For a raw key these
are its bytes.  Modelled from the spec: a program-derived address's
concrete bytes come from the ledger's external one-way derivation (§4.2);
they are modelled as a fixed 32-byte digest of the derivation inputs. -/
def Pubkey.toBuffer : Pubkey → List Nat
  | .raw b => b
  | .pda seeds programId => sha256 (seeds.flatMap id ++ programId.toBuffer)

/-- One entry of an instruction's account list (`keys` element). -/
structure AccountMeta where
  pubkey : Pubkey
  isSigner : Bool
  isWritable : Bool
deriving DecidableEq

/-- Source: `TransactionInstruction` (`@solana/web3.js`): ordered account
references, program id, and the encoded data buffer. -/
structure TransactionInstruction where
  keys : List AccountMeta
  programId : Pubkey
  data : List Nat
deriving DecidableEq

/-- Source: `authorizeNameInstruction` in `instructions.ts` (opcode 0):
data `[0] ++ hashed_name ++ [recordType] ++ u32(dataSize)`. -/
def authorizeNameInstruction (nameProgramId systemProgram payerKey
    nameAccountKey treasuryKey feeInfoKey : Pubkey) (hashed_name : List Nat)
    (recordType dataSize : Nat) : Except Err TransactionInstruction := do
  let sizeBuffer ← numberu32ToBuffer dataSize
  let data := [0] ++ hashed_name ++ [recordType] ++ sizeBuffer
  return { keys :=
        [⟨systemProgram, false, false⟩,
         ⟨payerKey, true, true⟩,
         ⟨nameAccountKey, false, true⟩,
         ⟨treasuryKey, false, true⟩,
         ⟨feeInfoKey, false, false⟩],
           programId := nameProgramId,
           data := data }

/-- Source: `setClaimKeyInstruction` in `instructions.ts` (opcode 1):
data `[1] ++ claimKey`. -/
def setClaimKeyInstruction (nameProgramId _systemProgram nameAccountKey
    signatoryKey claimKey : Pubkey) : Except Err TransactionInstruction :=
  .ok
    { keys :=
        [⟨nameAccountKey, false, true⟩,
         ⟨signatoryKey, true, false⟩],
      programId := nameProgramId,
      data := [1] ++ claimKey.toBuffer }

/-- Source: `assignNameInstruction` in `instructions.ts` (opcode 2):
data `[2] ++ ownerKey`. -/
def assignNameInstruction (nameProgramId nameAccountKey signatoryKey
    ownerKey : Pubkey) : Except Err TransactionInstruction :=
  .ok
    { keys :=
        [⟨nameAccountKey, false, true⟩,
         ⟨signatoryKey, true, false⟩],
           programId := nameProgramId,
           data := [2] ++ ownerKey.toBuffer }

/-- Source: `transferNameInstruction` in `instructions.ts` (opcode 3):
data `[3] ++ newOwnerKey`. -/
def transferNameInstruction (nameProgramId nameAccountKey currentNameOwnerKey
    newOwnerKey treasuryKey feeInfoKey : Pubkey) :
    Except Err TransactionInstruction :=
  .ok
    { keys :=
        [⟨nameAccountKey, false, true⟩,
         ⟨currentNameOwnerKey, true, false⟩,
         ⟨treasuryKey, false, true⟩,
         ⟨feeInfoKey, false, false⟩],
           programId := nameProgramId,
           data := [3] ++ newOwnerKey.toBuffer }

/-- Source: `updateNameInstruction` in `instructions.ts` (lines 161–194,
opcode 4): data `[4] ++ u32(offset) ++ u32(newData.length) ++ newData`. -/
def updateNameInstruction (nameProgramId nameAccountKey accountOwnerKey :
    Pubkey) (offset : Nat) (newData : List Nat) :
    Except Err TransactionInstruction := do
  let offsetBuffer ← numberu32ToBuffer offset
  let lengthBuffer ← numberu32ToBuffer newData.length
  let data := [4] ++ offsetBuffer ++ lengthBuffer ++ newData
  return { keys :=
        [⟨nameAccountKey, false, true⟩,
         ⟨accountOwnerKey, true, false⟩],
           programId := nameProgramId,
           data := data }

/-- Source: `deleteNameInstruction` in `instructions.ts` (opcode 5):
data `[5]`. -/
def deleteNameInstruction (nameProgramId nameAccountKey refundTargetKey
    nameOwnerKey treasuryKey feeInfoKey : Pubkey) :
    Except Err TransactionInstruction :=
  .ok
    { keys :=
        [⟨nameAccountKey, false, true⟩,
         ⟨nameOwnerKey, true, false⟩,
         ⟨refundTargetKey, false, true⟩,
         ⟨treasuryKey, false, true⟩,
         ⟨feeInfoKey, false, false⟩],
           programId := nameProgramId,
           data := [5] }

/-- Source: `createEscrowInstruction` in `instructions.ts` (lines 242–318,
opcode 6): data `[6] ++ hashed_name ++ [recordType] ++ u32(prevIndex) ++
u32(currIndex) ++ u32(nextIndex) ++ mint`. -/
def createEscrowInstruction (nameProgramId systemProgram payerKey
    nameAccountKey prevKey currKey nextKey treasuryKey feeInfoKey : Pubkey)
    (hashed_name : List Nat) (recordType prevIndex currIndex nextIndex : Nat)
    (mint : Pubkey) : Except Err TransactionInstruction := do
  let prevBuffer ← numberu32ToBuffer prevIndex
  let currBuffer ← numberu32ToBuffer currIndex
  let nextBuffer ← numberu32ToBuffer nextIndex
  let data := [6] ++ hashed_name ++ [recordType] ++ prevBuffer ++ currBuffer ++
    nextBuffer ++ mint.toBuffer
  return { keys :=
        [⟨systemProgram, false, false⟩,
         ⟨payerKey, true, true⟩,
         ⟨nameAccountKey, false, false⟩,
         ⟨prevKey, false, true⟩,
         ⟨currKey, false, true⟩,
         ⟨nextKey, false, true⟩,
         ⟨treasuryKey, false, true⟩,
         ⟨feeInfoKey, false, false⟩],
           programId := nameProgramId,
           data := data }

/-- Source: `toBufferBE(amount, 8)` from bigint-buffer: the 8-byte
big-endian form of the (truncated) amount. -/
def toBufferBE8 (amount : Nat) : List Nat :=
  natToBEBytesFixed 8 (amount % 2 ^ 64)

/-- `new BN(buffer)`: the big-endian value of a byte buffer. -/
def bnFromBEBytes (b : List Nat) : Nat :=
  b.foldl (fun acc x => acc * 256 + x) 0

/-- Source: `withdrawEscrowInstruction` in `instructions.ts` (opcode 7):
data `[7] ++ hashed_name ++ [recordType] ++ u32(index) ++ u64(amount)`. -/
def withdrawEscrowInstruction (nameProgramId requesterKey nameAccountKey
    escrowKey srcTokenAccountKey dstTokenAccountKey splTokenProgramKey
    treasuryKey feeInfoKey : Pubkey) (hashed_name : List Nat)
    (recordType index amount : Nat) : Except Err TransactionInstruction := do
  let indexBuffer ← numberu32ToBuffer index
  let amountBuffer ← numberu64ToBuffer (bnFromBEBytes (toBufferBE8 amount))
  let data := [7] ++ hashed_name ++ [recordType] ++ indexBuffer ++ amountBuffer
  return { keys :=
        [⟨requesterKey, true, true⟩,
         ⟨nameAccountKey, false, false⟩,
         ⟨escrowKey, false, true⟩,
         ⟨srcTokenAccountKey, false, true⟩,
         ⟨dstTokenAccountKey, false, true⟩,
         ⟨splTokenProgramKey, false, false⟩,
         ⟨treasuryKey, false, true⟩,
         ⟨feeInfoKey, false, false⟩],
           programId := nameProgramId,
           data := data }

/-- Source: `deleteEscrowInstruction` in `instructions.ts` (opcode 8):
data `[8] ++ hashed_name ++ [recordType] ++ u32(prevIndex) ++
u32(currIndex) ++ u32(nextIndex)`. -/
def deleteEscrowInstruction (nameProgramId systemProgram requesterKey
    senderKey nameAccountKey prevKey currKey nextKey treasuryKey
    feeInfoKey : Pubkey) (hashed_name : List Nat)
    (recordType prevIndex currIndex nextIndex : Nat) :
    Except Err TransactionInstruction := do
  let prevBuffer ← numberu32ToBuffer prevIndex
  let currBuffer ← numberu32ToBuffer currIndex
  let nextBuffer ← numberu32ToBuffer nextIndex
  let data := [8] ++ hashed_name ++ [recordType] ++ prevBuffer ++ currBuffer ++
    nextBuffer
  return { keys :=
        [⟨systemProgram, false, false⟩,
         ⟨requesterKey, true, false⟩,
         ⟨senderKey, false, true⟩,
         ⟨nameAccountKey, false, false⟩,
         ⟨prevKey, false, true⟩,
         ⟨currKey, false, true⟩,
         ⟨nextKey, false, true⟩,
         ⟨treasuryKey, false, true⟩,
         ⟨feeInfoKey, false, false⟩],
           programId := nameProgramId,
           data := data }

/-- Source: `updateConfigInstruction` in `instructions.ts` (opcode 9):
data `[9] ++ [configType] ++ u32(offset) ++ u32(newData.length) ++
newData`. -/
def updateConfigInstruction (nameProgramId systemProgram accountKey
    authorityKey : Pubkey) (configType : Nat) (offset : Nat)
    (newData : List Nat) : Except Err TransactionInstruction := do
  let offsetBuffer ← numberu32ToBuffer offset
  let lengthBuffer ← numberu32ToBuffer newData.length
  let data := [9] ++ [configType] ++ offsetBuffer ++ lengthBuffer ++ newData
  return { keys :=
        [⟨systemProgram, false, false⟩,
         ⟨authorityKey, true, true⟩,
         ⟨accountKey, false, true⟩],
           programId := nameProgramId,
           data := data }

/-! ### Escrow bindings (`bindings.ts`) -/

/-- The index-triple validation used by `createEscrowAccount` and
`deleteEscrowAccount` (`bindings.ts` lines 665–673 and 753–761):
reject when `index < 1`, `prev_index > index`, or `next_index < index`. -/
def escrowTripleInvalid (escrow : EscrowState) : Prop :=
  escrow.index < 1 ∨ escrow.prev_index > escrow.index ∨
    escrow.next_index < escrow.index

instance (escrow : EscrowState) : Decidable (escrowTripleInvalid escrow) := by
  unfold escrowTripleInvalid
  infer_instance

/-- Source: `createEscrowAccount` in `bindings.ts` (lines 658–692):
validate the triple (throwing `Invalid index; ...`), hash the name, derive
the name/prev/curr/next keys and encode the createEscrow instruction. -/
def createEscrowAccount (name : JsString) (recordType : Nat)
    (payerKey : Pubkey) (escrow : EscrowState) (mint : Pubkey) :
    Except Err TransactionInstruction :=
  if escrowTripleInvalid escrow then .error .invalidChainTriple
  else do
    let hashed_name ← getHashedName name
    let nameAccountKey := getNameAccountKey hashed_name recordType
    let prevKey ← getEscrowAccountKey hashed_name recordType escrow.prev_index
    let currKey ← getEscrowAccountKey hashed_name recordType escrow.index
    let nextKey ← getEscrowAccountKey hashed_name recordType escrow.next_index
    createEscrowInstruction STARMAP_PROGRAM_ID systemProgramId payerKey
      nameAccountKey prevKey currKey nextKey TREASURY_ACCOUNT CONFIG_ACCOUNT
      hashed_name recordType escrow.prev_index escrow.index escrow.next_index
      mint

/-- Source: `deleteEscrowAccount` in `bindings.ts` (lines 747–780): same
validation, then encode the deleteEscrow instruction (the decoded escrow's
`sender` is the refund target key). -/
def deleteEscrowAccount (name : JsString) (recordType : Nat)
    (payerKey : Pubkey) (escrow : EscrowState) :
    Except Err TransactionInstruction :=
  if escrowTripleInvalid escrow then .error .invalidChainTriple
  else do
    let hashed_name ← getHashedName name
    let nameAccountKey := getNameAccountKey hashed_name recordType
    let prevKey ← getEscrowAccountKey hashed_name recordType escrow.prev_index
    let currKey ← getEscrowAccountKey hashed_name recordType escrow.index
    let nextKey ← getEscrowAccountKey hashed_name recordType escrow.next_index
    deleteEscrowInstruction STARMAP_PROGRAM_ID systemProgramId payerKey
      escrow.sender nameAccountKey prevKey currKey nextKey TREASURY_ACCOUNT
      CONFIG_ACCOUNT hashed_name recordType escrow.prev_index escrow.index
      escrow.next_index

/-- Fee and rent-deposit estimate (`CostInfo` in `bindings.ts`). -/
structure CostInfo where
  fee : Nat
  deposit : Nat
deriving DecidableEq

/-- Source: `getVerifyCostLamports` in `bindings.ts` (lines 1131–1158):
rent for the header plus routing data, the Config account (or the
compiled-in default on absence), the per-record-type verify/assign fee
entries — note that the Email branch reads the *phone* fee fields, exactly
as the source does — and the pre-paid flags zeroing their components. -/
def getVerifyCostLamports (connection : Connection) (dataSize : Nat)
    (state : StarState) : Except Err CostInfo := do
  let totalSize := StarState.HEADER_LEN + dataSize
  let rent := connection.getMinimumBalanceForRentExemption totalSize
  let dynamicFees ← ConfigState.retrieve connection CONFIG_ACCOUNT
    STARMAP_PROGRAM_ID
  let fees :=
    match dynamicFees with
    | some f => f
    | none => ConfigState.default CONFIG_ACCOUNT
  let selected : Option (Nat × Nat) :=
    if state.recordType = RecordType.Phone then
      some (fees.name_verify_phone_lamports, fees.name_assign_phone_lamports)
    else if state.recordType = RecordType.Email then
      some (fees.name_verify_phone_lamports, fees.name_assign_phone_lamports)
    else none
  match selected with
  | none => return { fee := 0, deposit := 0 }
  | some (verify_fee, assign_fee) =>
    let assign_fee := if state.flags.paid_to_assign then 0 else assign_fee
    let verify_fee := if state.flags.paid_to_verify then 0 else verify_fee
    return { fee := assign_fee + verify_fee, deposit := rent }

/-! ### Helper lemmas -/

lemma decide_and_shift_testBit (s i : Nat) :
    decide (0 < s &&& (1 <<< i)) = s.testBit i := by
  rw [Nat.one_shiftLeft, Nat.and_two_pow]
  cases h : s.testBit i
  · simp
  · simp [Nat.two_pow_pos]

lemma mkStarState_paid_to_verify (v rt st : Nat) (sig own : Pubkey) :
    (mkStarState v rt st sig own).flags.paid_to_verify = st.testBit 1 :=
  decide_and_shift_testBit st 1

lemma mkStarState_paid_to_assign (v rt st : Nat) (sig own : Pubkey) :
    (mkStarState v rt st sig own).flags.paid_to_assign = st.testBit 2 :=
  decide_and_shift_testBit st 2

lemma getHashedName_error (name : JsString) (e : Err)
    (h : getHashedName name = .error e) : e = .invalidIdentifierLength := by
  unfold getHashedName at h
  split at h
  · exact ((Except.error.injEq _ _).mp h).symm
  · exact absurd h (by simp)

lemma numberu32ToBuffer_error (n : Nat) (e : Err)
    (h : numberu32ToBuffer n = .error e) : e = .numberuTooLarge := by
  by_cases h4 : (bnToArray n).length = 4
  · simp [numberu32ToBuffer, h4] at h
  · by_cases h4le : 4 ≤ (bnToArray n).length
    · simp [numberu32ToBuffer, h4, h4le] at h
      exact h.symm
    · simp [numberu32ToBuffer, h4, h4le] at h

lemma numberu64ToBuffer_error (n : Nat) (e : Err)
    (h : numberu64ToBuffer n = .error e) : e = .numberuTooLarge := by
  by_cases h8 : (bnToArray n).length = 8
  · simp [numberu64ToBuffer, h8] at h
  · by_cases h8le : 8 ≤ (bnToArray n).length
    · simp [numberu64ToBuffer, h8, h8le] at h
      exact h.symm
    · simp [numberu64ToBuffer, h8, h8le] at h

lemma getEscrowAccountKey_error (hn : List Nat) (rt i : Nat) (e : Err)
    (h : getEscrowAccountKey hn rt i = .error e) : e = .numberuTooLarge := by
  unfold getEscrowAccountKey at h
  cases hb : numberu32ToBuffer i with
  | error e2 =>
    rw [hb] at h
    simp [Bind.bind, Except.bind, Pure.pure, Except.pure] at h
    rw [← h]
    exact numberu32ToBuffer_error i e2 hb
  | ok b =>
    rw [hb] at h
    simp [Bind.bind, Except.bind, Pure.pure, Except.pure] at h

lemma createEscrowInstruction_error (a1 a2 a3 a4 a5 a6 a7 a8 a9 : Pubkey)
    (hn : List Nat) (rt p c nx : Nat) (mint : Pubkey) (e : Err)
    (h : createEscrowInstruction a1 a2 a3 a4 a5 a6 a7 a8 a9 hn rt p c nx mint
      = .error e) : e = .numberuTooLarge := by
  unfold createEscrowInstruction at h
  cases h1 : numberu32ToBuffer p with
  | error e1 =>
    rw [h1] at h
    simp [Bind.bind, Except.bind, Pure.pure, Except.pure] at h
    rw [← h]
    exact numberu32ToBuffer_error p e1 h1
  | ok b1 =>
    rw [h1] at h
    cases h2 : numberu32ToBuffer c with
    | error e2 =>
      rw [h2] at h
      simp [Bind.bind, Except.bind, Pure.pure, Except.pure] at h
      rw [← h]
      exact numberu32ToBuffer_error c e2 h2
    | ok b2 =>
      rw [h2] at h
      cases h3 : numberu32ToBuffer nx with
      | error e3 =>
        rw [h3] at h
        simp [Bind.bind, Except.bind, Pure.pure, Except.pure] at h
        rw [← h]
        exact numberu32ToBuffer_error nx e3 h3
      | ok b3 =>
        rw [h3] at h
        simp [Bind.bind, Except.bind, Pure.pure, Except.pure] at h

lemma deleteEscrowInstruction_error (a1 a2 a3 a4 a5 a6 a7 a8 a9 a10 : Pubkey)
    (hn : List Nat) (rt p c nx : Nat) (e : Err)
    (h : deleteEscrowInstruction a1 a2 a3 a4 a5 a6 a7 a8 a9 a10 hn rt p c nx
      = .error e) : e = .numberuTooLarge := by
  unfold deleteEscrowInstruction at h
  cases h1 : numberu32ToBuffer p with
  | error e1 =>
    rw [h1] at h
    simp [Bind.bind, Except.bind, Pure.pure, Except.pure] at h
    rw [← h]
    exact numberu32ToBuffer_error p e1 h1
  | ok b1 =>
    rw [h1] at h
    cases h2 : numberu32ToBuffer c with
    | error e2 =>
      rw [h2] at h
      simp [Bind.bind, Except.bind, Pure.pure, Except.pure] at h
      rw [← h]
      exact numberu32ToBuffer_error c e2 h2
    | ok b2 =>
      rw [h2] at h
      cases h3 : numberu32ToBuffer nx with
      | error e3 =>
        rw [h3] at h
        simp [Bind.bind, Except.bind, Pure.pure, Except.pure] at h
        rw [← h]
        exact numberu32ToBuffer_error nx e3 h3
      | ok b3 =>
        rw [h3] at h
        simp [Bind.bind, Except.bind, Pure.pure, Except.pure] at h

/-- The triple validation of `createEscrowAccount` is exact: the
`InvalidChainTriple` error appears precisely when the triple is bad. -/
lemma createEscrowAccount_invalid_iff (name : JsString) (rt : Nat)
    (payerKey : Pubkey) (escrow : EscrowState) (mint : Pubkey) :
    createEscrowAccount name rt payerKey escrow mint
      = .error .invalidChainTriple ↔ escrowTripleInvalid escrow := by
  constructor
  · intro h
    by_contra hv
    unfold createEscrowAccount at h
    rw [if_neg hv] at h
    cases hh : getHashedName name with
    | error e =>
      rw [hh] at h
      have he := getHashedName_error name e hh
      subst he
      simp [Bind.bind, Except.bind] at h
    | ok hashed =>
      rw [hh] at h
      simp only [Bind.bind, Except.bind, Pure.pure, Except.pure] at h
      cases hk1 : getEscrowAccountKey hashed rt escrow.prev_index with
      | error e =>
        rw [hk1] at h
        have he := getEscrowAccountKey_error hashed rt escrow.prev_index e hk1
        subst he
        simp at h
      | ok k1 =>
        rw [hk1] at h
        cases hk2 : getEscrowAccountKey hashed rt escrow.index with
        | error e =>
          rw [hk2] at h
          have he := getEscrowAccountKey_error hashed rt escrow.index e hk2
          subst he
          simp at h
        | ok k2 =>
          rw [hk2] at h
          cases hk3 : getEscrowAccountKey hashed rt escrow.next_index with
          | error e =>
            rw [hk3] at h
            have he := getEscrowAccountKey_error hashed rt escrow.next_index e
              hk3
            subst he
            simp at h
          | ok k3 =>
            rw [hk3] at h
            simp only [] at h
            have he := createEscrowInstruction_error _ _ _ _ _ _ _ _ _ _ _ _ _
              _ _ _ h
            exact absurd he (by simp)
  · intro hv
    unfold createEscrowAccount
    rw [if_pos hv]

/-- The triple validation of `deleteEscrowAccount` is exact. -/
lemma deleteEscrowAccount_invalid_iff (name : JsString) (rt : Nat)
    (payerKey : Pubkey) (escrow : EscrowState) :
    deleteEscrowAccount name rt payerKey escrow
      = .error .invalidChainTriple ↔ escrowTripleInvalid escrow := by
  constructor
  · intro h
    by_contra hv
    unfold deleteEscrowAccount at h
    rw [if_neg hv] at h
    cases hh : getHashedName name with
    | error e =>
      rw [hh] at h
      have he := getHashedName_error name e hh
      subst he
      simp [Bind.bind, Except.bind] at h
    | ok hashed =>
      rw [hh] at h
      simp only [Bind.bind, Except.bind, Pure.pure, Except.pure] at h
      cases hk1 : getEscrowAccountKey hashed rt escrow.prev_index with
      | error e =>
        rw [hk1] at h
        have he := getEscrowAccountKey_error hashed rt escrow.prev_index e hk1
        subst he
        simp at h
      | ok k1 =>
        rw [hk1] at h
        cases hk2 : getEscrowAccountKey hashed rt escrow.index with
        | error e =>
          rw [hk2] at h
          have he := getEscrowAccountKey_error hashed rt escrow.index e hk2
          subst he
          simp at h
        | ok k2 =>
          rw [hk2] at h
          cases hk3 : getEscrowAccountKey hashed rt escrow.next_index with
          | error e =>
            rw [hk3] at h
            have he := getEscrowAccountKey_error hashed rt escrow.next_index e
              hk3
            subst he
            simp at h
          | ok k3 =>
            rw [hk3] at h
            simp only [] at h
            have he := deleteEscrowInstruction_error _ _ _ _ _ _ _ _ _ _ _ _ _
              _ _ _ h
            exact absurd he (by simp)
  · intro hv
    unfold deleteEscrowAccount
    rw [if_pos hv]

lemma getHashedName_ok (name : JsString) (h : utf16Length name ≤ MAX_NAME_LENGTH) :
    getHashedName name = .ok (sha256 (utf8Encode name)) := by
  unfold getHashedName
  rw [if_neg (by omega)]

lemma createEscrowAccount_ok (name : JsString) (rt : Nat) (payerKey : Pubkey)
    (escrow : EscrowState) (mint : Pubkey)
    (hv : ¬ escrowTripleInvalid escrow)
    (hlen : utf16Length name ≤ MAX_NAME_LENGTH)
    (hp : escrow.prev_index < 2 ^ 32) (hc : escrow.index < 2 ^ 32)
    (hx : escrow.next_index < 2 ^ 32) :
    ∃ instr, createEscrowAccount name rt payerKey escrow mint = .ok instr := by
  unfold createEscrowAccount
  rw [if_neg hv]
  simp [getHashedName_ok name hlen, getEscrowAccountKey_eq _ _ _ hp,
    getEscrowAccountKey_eq _ _ _ hc, getEscrowAccountKey_eq _ _ _ hx,
    createEscrowInstruction, numberu32ToBuffer_eq _ hp,
    numberu32ToBuffer_eq _ hc, numberu32ToBuffer_eq _ hx,
    Bind.bind, Except.bind, Pure.pure, Except.pure]

lemma deleteEscrowAccount_ok (name : JsString) (rt : Nat) (payerKey : Pubkey)
    (escrow : EscrowState)
    (hv : ¬ escrowTripleInvalid escrow)
    (hlen : utf16Length name ≤ MAX_NAME_LENGTH)
    (hp : escrow.prev_index < 2 ^ 32) (hc : escrow.index < 2 ^ 32)
    (hx : escrow.next_index < 2 ^ 32) :
    ∃ instr, deleteEscrowAccount name rt payerKey escrow = .ok instr := by
  unfold deleteEscrowAccount
  rw [if_neg hv]
  simp [getHashedName_ok name hlen, getEscrowAccountKey_eq _ _ _ hp,
    getEscrowAccountKey_eq _ _ _ hc, getEscrowAccountKey_eq _ _ _ hx,
    deleteEscrowInstruction, numberu32ToBuffer_eq _ hp,
    numberu32ToBuffer_eq _ hc, numberu32ToBuffer_eq _ hx,
    Bind.bind, Except.bind, Pure.pure, Except.pure]

lemma starStateDeserialize_some (d : List Nat) (res0 : StarState)
    (h : starStateDeserialize d = some res0) :
    res0 = mkStarState (d.getD 0 0) (d.getD 1 0) (borshU16At d 2)
      (borshPubkeyAt d 4) (borshPubkeyAt d 36) ∧ 68 ≤ d.length := by
  unfold starStateDeserialize at h
  split at h
  · simp at h
  · exact ⟨((Option.some.injEq _ _).mp h).symm, by omega⟩

/-! ### Claim theorems -/

/-- C3: for every escrow triple supplied to `createEscrowAccount` or
`deleteEscrowAccount`, the operation fails with the `InvalidChainTriple`
error (and produces no instruction) exactly when `currIndex < 1` or
`prevIndex > currIndex` or `nextIndex < currIndex`; in particular the
triple `{prev: 2, curr: 1, next: 5}` is rejected; a triple satisfying all
three conditions (for an identifier within the length limit and with
`u32`-range indices) yields an encoded instruction. -/
theorem C3_escrow_triple_validation :
    (∀ (name : JsString) (recordType : Nat) (payerKey : Pubkey)
       (escrow : EscrowState) (mint : Pubkey),
       createEscrowAccount name recordType payerKey escrow mint
           = .error .invalidChainTriple ↔
         (escrow.index < 1 ∨ escrow.prev_index > escrow.index ∨
           escrow.next_index < escrow.index))
  ∧ (∀ (name : JsString) (recordType : Nat) (payerKey : Pubkey)
       (escrow : EscrowState),
       deleteEscrowAccount name recordType payerKey escrow
           = .error .invalidChainTriple ↔
         (escrow.index < 1 ∨ escrow.prev_index > escrow.index ∨
           escrow.next_index < escrow.index))
  ∧ (∀ (name : JsString) (recordType : Nat) (payerKey mint : Pubkey),
       createEscrowAccount name recordType payerKey
           (EscrowState.empty 1 2 5 pubkeyDefault) mint
         = .error .invalidChainTriple)
  ∧ (∀ (name : JsString) (recordType : Nat) (payerKey : Pubkey)
       (escrow : EscrowState) (mint : Pubkey),
       ¬ (escrow.index < 1 ∨ escrow.prev_index > escrow.index ∨
           escrow.next_index < escrow.index) →
       utf16Length name ≤ MAX_NAME_LENGTH →
       escrow.prev_index < 2 ^ 32 → escrow.index < 2 ^ 32 →
       escrow.next_index < 2 ^ 32 →
       ∃ instr, createEscrowAccount name recordType payerKey escrow mint
         = .ok instr)
  ∧ (∀ (name : JsString) (recordType : Nat) (payerKey : Pubkey)
       (escrow : EscrowState),
       ¬ (escrow.index < 1 ∨ escrow.prev_index > escrow.index ∨
           escrow.next_index < escrow.index) →
       utf16Length name ≤ MAX_NAME_LENGTH →
       escrow.prev_index < 2 ^ 32 → escrow.index < 2 ^ 32 →
       escrow.next_index < 2 ^ 32 →
       ∃ instr, deleteEscrowAccount name recordType payerKey escrow
         = .ok instr) := by
  refine ⟨?_, ?_, ?_, ?_, ?_⟩
  · intro name recordType payerKey escrow mint
    exact createEscrowAccount_invalid_iff name recordType payerKey escrow mint
  · intro name recordType payerKey escrow
    exact deleteEscrowAccount_invalid_iff name recordType payerKey escrow
  · intro name recordType payerKey mint
    exact (createEscrowAccount_invalid_iff name recordType payerKey
      (EscrowState.empty 1 2 5 pubkeyDefault) mint).mpr (by
        simp [escrowTripleInvalid, EscrowState.empty])
  · intro name recordType payerKey escrow mint hv hlen hp hc hx
    exact createEscrowAccount_ok name recordType payerKey escrow mint hv hlen
      hp hc hx
  · intro name recordType payerKey escrow hv hlen hp hc hx
    exact deleteEscrowAccount_ok name recordType payerKey escrow hv hlen hp hc
      hx

/-- Witness for C3 at concrete inputs: the identifier "a", a valid slot
triple `(1, 0, U32_MAX)` (accepted) and the claim's rejected triple
`{prev: 2, curr: 1, next: 5}`. -/
theorem C3_escrow_triple_validation_witness :
    (∃ instr, createEscrowAccount [97] 1 pubkeyDefault
        (EscrowState.empty 1 0 U32_MAX pubkeyDefault) pubkeyDefault
      = .ok instr)
  ∧ createEscrowAccount [97] 1 pubkeyDefault
        (EscrowState.empty 1 2 5 pubkeyDefault) pubkeyDefault
      = .error .invalidChainTriple := by
  constructor
  · exact C3_escrow_triple_validation.2.2.2.1 [97] 1 pubkeyDefault
      (EscrowState.empty 1 0 U32_MAX pubkeyDefault) pubkeyDefault
      (by simp [EscrowState.empty, U32_MAX]) (by simp [utf16Length, MAX_NAME_LENGTH])
      (by simp [EscrowState.empty]) (by simp [EscrowState.empty])
      (by simp [EscrowState.empty, U32_MAX])
  · exact C3_escrow_triple_validation.2.2.1 [97] 1 pubkeyDefault pubkeyDefault

/-- C7: for every decoded Name Record, `isAuthorized` equals
`paid_to_verify && paid_to_assign` (bits 1 and 2 of the stored state) and
`isReadyToAssign` equals `paid_to_assign && !paid_to_verify`; with
`state = 0` both are false, and with bits 1 and 2 both set `isAuthorized`
is true. -/
theorem C7_derived_predicates_match_bitfield (connection : Connection)
    (nameAccountKey programId : Pubkey) (info : AccountInfo)
    (res : StarState)
    (hacc : connection.getAccountInfo nameAccountKey = some info)
    (howner : info.owner = programId)
    (hres : StarState.retrieve connection nameAccountKey programId
      = .ok res)
    (hpresent : res.isPresent = true) :
    res.isAuthorized = (res.flags.paid_to_verify && res.flags.paid_to_assign)
  ∧ res.isReadyToAssign
      = (res.flags.paid_to_assign && !res.flags.paid_to_verify)
  ∧ res.flags.paid_to_verify = res.state.testBit 1
  ∧ res.flags.paid_to_assign = res.state.testBit 2
  ∧ (res.state = 0 → res.isAuthorized = false ∧ res.isReadyToAssign = false)
  ∧ (res.state.testBit 1 = true → res.state.testBit 2 = true →
      res.isAuthorized = true) := by
  clear hpresent
  unfold StarState.retrieve at hres
  rw [hacc] at hres
  dsimp only at hres
  rw [if_neg (by simp [howner])] at hres
  cases hdec : starStateDeserialize info.data with
  | none => rw [hdec] at hres; exact absurd hres (by simp)
  | some res0 =>
    rw [hdec] at hres
    obtain ⟨hres0, -⟩ := starStateDeserialize_some _ _ hdec
    subst hres0
    dsimp only at hres
    have main : res.isAuthorized
          = (res.flags.paid_to_verify && res.flags.paid_to_assign)
        ∧ res.isReadyToAssign
          = (res.flags.paid_to_assign && !res.flags.paid_to_verify)
        ∧ res.flags.paid_to_verify = res.state.testBit 1
        ∧ res.flags.paid_to_assign = res.state.testBit 2 := by
      split_ifs at hres with h1 h2 <;>
      · have hr := (Except.ok.injEq _ _).mp hres
        subst hr
        refine ⟨Bool.and_comm _ _, rfl, ?_, ?_⟩
        · exact decide_and_shift_testBit _ 1
        · exact decide_and_shift_testBit _ 2
    obtain ⟨hA, hR, hV, hAs⟩ := main
    refine ⟨hA, hR, hV, hAs, ?_, ?_⟩
    · intro h0
      rw [hA, hR, hV, hAs, h0]
      simp [Nat.zero_testBit]
    · intro hb1 hb2
      rw [hA, hV, hAs, hb1, hb2]
      rfl

/-- The concrete connection of the C7 witness: one Name Record account
with `versionMajor = 1`, `recordType = 1`, `state = 6` (bits 1 and 2 set)
and a nonzero owner. -/
def c7Conn : Connection where
  getAccountInfo := fun k =>
    if k = pubkeyDefault then
      some ⟨STARMAP_PROGRAM_ID,
        [1, 1, 6, 0] ++ List.replicate 32 0 ++ List.replicate 32 9⟩
    else none
  getMinimumBalanceForRentExemption := fun _ => 0

/-- The record the C7 witness connection decodes to. -/
def c7Record : StarState where
  versionMajor := 1
  recordType := 1
  state := 6
  signatory := .raw (List.replicate 32 0)
  owner := .raw (List.replicate 32 9)
  routingInfo := []
  flags :=
    { locked := false
      paid_to_verify := true
      paid_to_assign := true
      contested := false
      disable_notifications := false }
  isPresent := true
  isAuthorized := true
  isReadyToAssign := false
  isAssignedAndValid := true
  invalidReason := "Need to call StarState.retrieve(...)"

/-- Witness for C7 at a concrete fetched record with state bits 1 and 2
set (`state = 6`): `isAuthorized` comes out `true`. -/
theorem C7_derived_predicates_witness :
    StarState.retrieve c7Conn pubkeyDefault STARMAP_PROGRAM_ID
        = .ok c7Record
      ∧ c7Record.isAuthorized = true := by
  have hres : StarState.retrieve c7Conn pubkeyDefault STARMAP_PROGRAM_ID
      = .ok c7Record := by decide
  have happ := C7_derived_predicates_match_bitfield c7Conn pubkeyDefault
    STARMAP_PROGRAM_ID
    ⟨STARMAP_PROGRAM_ID,
      [1, 1, 6, 0] ++ List.replicate 32 0 ++ List.replicate 32 9⟩
    c7Record (by decide) (by decide) hres (by decide)
  exact ⟨hres, happ.2.2.2.2.2 (by decide) (by decide)⟩

lemma natToBEBytesMin_ge (n : Nat) (h0 : n ≠ 0) :
    256 ^ ((natToBEBytesMin n).length - 1) ≤ n := by
  induction n using Nat.strong_induction_on with
  | _ n ih =>
    rw [natToBEBytesMin_step n h0]
    by_cases hq : n / 256 = 0
    · simp [hq, natToBEBytesMin_zero]
      omega
    · have hlt : n / 256 < n := Nat.div_lt_self (by omega) (by norm_num)
      have hih := ih (n / 256) hlt hq
      have hlen1 : 1 ≤ (natToBEBytesMin (n / 256)).length := by
        by_contra hc
        push_neg at hc
        interval_cases hl : (natToBEBytesMin (n / 256)).length
        · have := natToBEBytesMin_lt (n / 256)
          rw [hl] at this
          simp at this
          omega
      simp only [List.length_append, List.length_cons, List.length_nil,
        Nat.add_zero]
      have he : (natToBEBytesMin (n / 256)).length + 1 - 1 =
          ((natToBEBytesMin (n / 256)).length - 1) + 1 := by omega
      rw [he, pow_succ]
      have := Nat.div_mul_le_self n 256
      calc 256 ^ ((natToBEBytesMin (n / 256)).length - 1) * 256
          ≤ (n / 256) * 256 := by
            exact Nat.mul_le_mul_right 256 hih
        _ ≤ n := by
            have := Nat.div_mul_le_self n 256
            omega

lemma numberu64ToBuffer_ok (n : Nat) (h : n < 2 ^ 64) :
    ∃ b, numberu64ToBuffer n = .ok b ∧ b.length = 8 := by
  have hlen : (bnToArray n).length ≤ 8 := by
    by_cases h0 : n = 0
    · simp [h0, bnToArray]
    · rw [bnToArray, if_neg h0]
      by_contra hc
      push_neg at hc
      have := natToBEBytesMin_ge n h0
      have h8 : 8 ≤ (natToBEBytesMin n).length - 1 := by omega
      have : 256 ^ 8 ≤ 256 ^ ((natToBEBytesMin n).length - 1) :=
        Nat.pow_le_pow_right (by norm_num) h8
      have h84 : (256 : Nat) ^ 8 = 2 ^ 64 := by norm_num
      omega
  by_cases h8 : (bnToArray n).length = 8
  · refine ⟨(bnToArray n).reverse, ?_, by simp [h8]⟩
    simp [numberu64ToBuffer, h8]
  · refine ⟨(bnToArray n).reverse ++
      List.replicate (8 - (bnToArray n).reverse.length) 0, ?_, ?_⟩
    · simp only [numberu64ToBuffer]
      rw [if_neg (by simp [h8]), if_neg (by simp; omega)]
    · simp
      omega

lemma bnFromBEBytes_lt_aux (l : List Nat) (h : ∀ x ∈ l, x < 256) :
    ∀ acc, l.foldl (fun acc x => acc * 256 + x) acc <
      (acc + 1) * 256 ^ l.length := by
  induction l with
  | nil => intro acc; simp
  | cons x xs ih =>
    intro acc
    have hx : x < 256 := h x (by simp)
    have hxs : ∀ y ∈ xs, y < 256 := fun y hy => h y (by simp [hy])
    have := ih hxs (acc * 256 + x)
    simp only [List.foldl_cons, List.length_cons]
    calc xs.foldl (fun acc x => acc * 256 + x) (acc * 256 + x)
        < (acc * 256 + x + 1) * 256 ^ xs.length := this
      _ ≤ ((acc + 1) * 256) * 256 ^ xs.length := by
          apply Nat.mul_le_mul_right
          omega
      _ = (acc + 1) * 256 ^ (xs.length + 1) := by ring

lemma toBufferBE8_bytes (amount : Nat) : ∀ x ∈ toBufferBE8 amount, x < 256 := by
  intro x hx
  simp [toBufferBE8, natToBEBytesFixed] at hx
  obtain ⟨i, -, hi⟩ := hx
  omega

lemma bnFromBEBytes_toBufferBE8_lt (amount : Nat) :
    bnFromBEBytes (toBufferBE8 amount) < 2 ^ 64 := by
  have h := bnFromBEBytes_lt_aux (toBufferBE8 amount)
    (toBufferBE8_bytes amount) 0
  have hlen : (toBufferBE8 amount).length = 8 := by
    simp [toBufferBE8, natToBEBytesFixed_length]
  rw [hlen] at h
  simpa [bnFromBEBytes] using h

/-- C4: every encoded operation payload begins with its fixed one-byte
opcode (authorize = 0, setClaimKey = 1, assign = 2, transfer = 3,
update = 4, delete = 5, createEscrow = 6, withdrawEscrow = 7,
deleteEscrow = 8, updateConfig = 9) followed by that operation's
fixed-order field sequence; in particular `updateNameInstruction` emits
exactly `[4, offset u32, dataLen u32, data]` and `createEscrowInstruction`
emits exactly `[6, digest 32B, recordType u8, prevIndex u32, currIndex
u32, nextIndex u32, mint 32B]` (78 bytes). -/
theorem C4_instruction_opcode_layout :
    (∀ (a1 a2 a3 a4 a5 a6 : Pubkey) (hashed : List Nat) (rt size : Nat),
      size < 2 ^ 32 →
      ∃ instr, authorizeNameInstruction a1 a2 a3 a4 a5 a6 hashed rt size
          = .ok instr
        ∧ instr.data = [0] ++ hashed ++ [rt] ++ u32le size)
  ∧ (∀ (a1 a2 a3 a4 claimKey : Pubkey),
      ∃ instr, setClaimKeyInstruction a1 a2 a3 a4 claimKey = .ok instr
        ∧ instr.data = [1] ++ claimKey.toBuffer)
  ∧ (∀ (a1 a2 a3 ownerKey : Pubkey),
      ∃ instr, assignNameInstruction a1 a2 a3 ownerKey = .ok instr
        ∧ instr.data = [2] ++ ownerKey.toBuffer)
  ∧ (∀ (a1 a2 a3 newOwnerKey a5 a6 : Pubkey),
      ∃ instr, transferNameInstruction a1 a2 a3 newOwnerKey a5 a6 = .ok instr
        ∧ instr.data = [3] ++ newOwnerKey.toBuffer)
  ∧ (∀ (a1 a2 a3 : Pubkey) (offset : Nat) (newData : List Nat),
      offset < 2 ^ 32 → newData.length < 2 ^ 32 →
      ∃ instr, updateNameInstruction a1 a2 a3 offset newData = .ok instr
        ∧ instr.data = [4] ++ u32le offset ++ u32le newData.length ++ newData)
  ∧ (∀ (a1 a2 a3 a4 a5 a6 : Pubkey),
      ∃ instr, deleteNameInstruction a1 a2 a3 a4 a5 a6 = .ok instr
        ∧ instr.data = [5])
  ∧ (∀ (a1 a2 a3 a4 a5 a6 a7 a8 a9 : Pubkey) (hashed : List Nat)
       (rt p c nx : Nat) (mint : Pubkey),
      p < 2 ^ 32 → c < 2 ^ 32 → nx < 2 ^ 32 →
      ∃ instr, createEscrowInstruction a1 a2 a3 a4 a5 a6 a7 a8 a9 hashed rt
          p c nx mint = .ok instr
        ∧ instr.data = [6] ++ hashed ++ [rt] ++ u32le p ++ u32le c ++
            u32le nx ++ mint.toBuffer
        ∧ (hashed.length = 32 → mint.toBuffer.length = 32 →
            instr.data.length = 78))
  ∧ (∀ (a1 a2 a3 a4 a5 a6 a7 a8 a9 : Pubkey) (hashed : List Nat)
       (rt index amount : Nat),
      index < 2 ^ 32 →
      ∃ instr amountBuf,
        withdrawEscrowInstruction a1 a2 a3 a4 a5 a6 a7 a8 a9 hashed rt index
          amount = .ok instr
        ∧ instr.data = [7] ++ hashed ++ [rt] ++ u32le index ++ amountBuf
        ∧ amountBuf.length = 8)
  ∧ (∀ (a1 a2 a3 a4 a5 a6 a7 a8 a9 a10 : Pubkey) (hashed : List Nat)
       (rt p c nx : Nat),
      p < 2 ^ 32 → c < 2 ^ 32 → nx < 2 ^ 32 →
      ∃ instr, deleteEscrowInstruction a1 a2 a3 a4 a5 a6 a7 a8 a9 a10 hashed
          rt p c nx = .ok instr
        ∧ instr.data = [8] ++ hashed ++ [rt] ++ u32le p ++ u32le c ++
            u32le nx)
  ∧ (∀ (a1 a2 a3 a4 : Pubkey) (configType offset : Nat)
       (newData : List Nat),
      offset < 2 ^ 32 → newData.length < 2 ^ 32 →
      ∃ instr, updateConfigInstruction a1 a2 a3 a4 configType offset newData
          = .ok instr
        ∧ instr.data = [9] ++ [configType] ++ u32le offset ++
            u32le newData.length ++ newData) := by
  refine ⟨?_, ?_, ?_, ?_, ?_, ?_, ?_, ?_, ?_, ?_⟩
  · intro a1 a2 a3 a4 a5 a6 hashed rt size hs
    simp [authorizeNameInstruction, numberu32ToBuffer_eq size hs, Bind.bind,
      Except.bind, Pure.pure, Except.pure]
  · intro a1 a2 a3 a4 claimKey
    exact ⟨_, rfl, rfl⟩
  · intro a1 a2 a3 ownerKey
    exact ⟨_, rfl, rfl⟩
  · intro a1 a2 a3 newOwnerKey a5 a6
    exact ⟨_, rfl, rfl⟩
  · intro a1 a2 a3 offset newData ho hl
    simp [updateNameInstruction, numberu32ToBuffer_eq offset ho,
      numberu32ToBuffer_eq newData.length hl, Bind.bind, Except.bind,
      Pure.pure, Except.pure]
  · intro a1 a2 a3 a4 a5 a6
    exact ⟨_, rfl, rfl⟩
  · intro a1 a2 a3 a4 a5 a6 a7 a8 a9 hashed rt p c nx mint hp hc hx
    have hex : ∃ instr, createEscrowInstruction a1 a2 a3 a4 a5 a6 a7 a8 a9
        hashed rt p c nx mint = .ok instr
      ∧ instr.data = [6] ++ hashed ++ [rt] ++ u32le p ++ u32le c ++
          u32le nx ++ mint.toBuffer := by
      simp [createEscrowInstruction, numberu32ToBuffer_eq p hp,
        numberu32ToBuffer_eq c hc, numberu32ToBuffer_eq nx hx, Bind.bind,
        Except.bind, Pure.pure, Except.pure]
    obtain ⟨instr, h1, h2⟩ := hex
    refine ⟨instr, h1, h2, ?_⟩
    intro hh hm
    rw [h2]
    simp [u32le, hh, hm]
  · intro a1 a2 a3 a4 a5 a6 a7 a8 a9 hashed rt index amount hi
    obtain ⟨b, hb, hblen⟩ := numberu64ToBuffer_ok
      (bnFromBEBytes (toBufferBE8 amount)) (bnFromBEBytes_toBufferBE8_lt amount)
    have hex : ∃ instr, withdrawEscrowInstruction a1 a2 a3 a4 a5 a6 a7 a8 a9
        hashed rt index amount = .ok instr
      ∧ instr.data = [7] ++ hashed ++ [rt] ++ u32le index ++ b := by
      simp [withdrawEscrowInstruction, numberu32ToBuffer_eq index hi, hb,
        Bind.bind, Except.bind, Pure.pure, Except.pure]
    obtain ⟨instr, h1, h2⟩ := hex
    exact ⟨instr, b, h1, h2, hblen⟩
  · intro a1 a2 a3 a4 a5 a6 a7 a8 a9 a10 hashed rt p c nx hp hc hx
    simp [deleteEscrowInstruction, numberu32ToBuffer_eq p hp,
      numberu32ToBuffer_eq c hc, numberu32ToBuffer_eq nx hx, Bind.bind,
      Except.bind, Pure.pure, Except.pure]
  · intro a1 a2 a3 a4 configType offset newData ho hl
    simp [updateConfigInstruction, numberu32ToBuffer_eq offset ho,
      numberu32ToBuffer_eq newData.length hl, Bind.bind, Except.bind,
      Pure.pure, Except.pure]

/-- Witness for C4: the update layout at `offset = 3`, data `[9, 9]`, and
the createEscrow layout at the triple `(0, 1, 2)` with a concrete digest
and mint. -/
theorem C4_instruction_opcode_layout_witness :
    (∃ instr, updateNameInstruction pubkeyDefault pubkeyDefault pubkeyDefault
        3 [9, 9] = .ok instr
      ∧ instr.data = [4] ++ u32le 3 ++ u32le 2 ++ [9, 9])
  ∧ (∃ instr, createEscrowInstruction pubkeyDefault pubkeyDefault
        pubkeyDefault pubkeyDefault pubkeyDefault pubkeyDefault pubkeyDefault
        pubkeyDefault pubkeyDefault (List.replicate 32 7) 1 0 1 2
        pubkeyDefault = .ok instr
      ∧ instr.data = [6] ++ List.replicate 32 7 ++ [1] ++ u32le 0 ++
          u32le 1 ++ u32le 2 ++ pubkeyDefault.toBuffer
      ∧ instr.data.length = 78) := by
  constructor
  · exact C4_instruction_opcode_layout.2.2.2.2.1 pubkeyDefault pubkeyDefault
      pubkeyDefault 3 [9, 9] (by norm_num) (by norm_num)
  · obtain ⟨instr, h1, h2, h3⟩ :=
      C4_instruction_opcode_layout.2.2.2.2.2.2.1 pubkeyDefault pubkeyDefault
        pubkeyDefault pubkeyDefault pubkeyDefault pubkeyDefault pubkeyDefault
        pubkeyDefault pubkeyDefault (List.replicate 32 7) 1 0 1 2
        pubkeyDefault (by norm_num) (by norm_num) (by norm_num)
    exact ⟨instr, h1, h2, h3 (by simp) (by simp [Pubkey.toBuffer])⟩

/-- C6 (amended): `getHashedName` fails with the invalid-identifier-length
error exactly when the identifier exceeds 255 UTF-16 code units (the
JavaScript `length` property) — not 255 UTF-8 bytes — producing no partial
result on failure; within the limit it deterministically returns the
32-byte SHA-256 digest of the identifier's UTF-8 bytes. -/
theorem C6_hash_length_check (name : JsString) :
    (getHashedName name = .error .invalidIdentifierLength ↔
      MAX_NAME_LENGTH < utf16Length name)
  ∧ (utf16Length name ≤ MAX_NAME_LENGTH →
      getHashedName name = .ok (sha256 (utf8Encode name))
      ∧ (sha256 (utf8Encode name)).length = 32) := by
  constructor
  · unfold getHashedName
    split_ifs with h
    · constructor
      · intro _
        omega
      · intro _
        rfl
    · constructor
      · intro hcontra
        exact absurd hcontra (by simp)
      · intro hlt
        omega
  · intro h
    exact ⟨getHashedName_ok name h, sha256_length _⟩

/-- Counterexample for C6 as frozen: the 128-character string of
`U+00A1` code points has 256 UTF-8 bytes (over the claimed 255-byte
limit) yet hashes successfully — the code checks UTF-16 length, not
UTF-8 byte length. -/
theorem C6_hash_length_check_counterexample :
    utf16Length (List.replicate 128 0xa1) = 128
  ∧ (utf8Encode (List.replicate 128 0xa1)).length = 256
  ∧ MAX_NAME_LENGTH < 256
  ∧ getHashedName (List.replicate 128 0xa1)
      = .ok (sha256 (utf8Encode (List.replicate 128 0xa1))) :=
  ⟨by decide, by decide, by decide, rfl⟩

/-- Witness for C6 at the identifier "abc". -/
theorem C6_hash_length_check_witness :
    utf16Length [97, 98, 99] ≤ MAX_NAME_LENGTH
  ∧ getHashedName [97, 98, 99] = .ok (sha256 (utf8Encode [97, 98, 99]))
  ∧ (sha256 (utf8Encode [97, 98, 99])).length = 32 :=
  ⟨by decide, ((C6_hash_length_check [97, 98, 99]).2 (by decide)).1,
    ((C6_hash_length_check [97, 98, 99]).2 (by decide)).2⟩

/-- Source: the legacy `StarState` class embedded as the third document of
`instructions.ts` (lines 586–691, an older revision of `state.ts`): same
borsh fields and sentinels, no `flags` bitfield, derived booleans read
directly off the `state` bits. -/
structure LegacyStarState where
  versionMajor : Nat
  recordType : Nat
  state : Nat
  signatory : Pubkey
  owner : Pubkey
  routingInfo : List Nat
  isPresent : Bool
  isAuthorized : Bool
  isReadyToAssign : Bool
  isAssignedAndValid : Bool
  invalidReason : String
deriving DecidableEq

/-- Source: the legacy `StarState` constructor (`instructions.ts` lines
621–633): stores the borsh fields; the derived booleans start `false` and
`invalidReason` starts at its field initializer. -/
def mkLegacyStarState (versionMajor recordType state : Nat)
    (signatory owner : Pubkey) : LegacyStarState where
  versionMajor := versionMajor
  recordType := recordType
  state := state
  signatory := signatory
  owner := owner
  routingInfo := []
  isPresent := false
  isAuthorized := false
  isReadyToAssign := false
  isAssignedAndValid := false
  invalidReason := "Need to call StarState.retrieve(...)"

/-- Source: `StarState.empty(invalidReason)` of the legacy copy. -/
def LegacyStarState.empty (invalidReason : String) : LegacyStarState :=
  { mkLegacyStarState 0 0 0 (.raw (List.replicate 32 0))
      (.raw (List.replicate 32 0)) with invalidReason := invalidReason }

/-- Borsh decode for the legacy copy (same 68-byte header schema). -/
def legacyStarStateDeserialize (d : List Nat) : Option LegacyStarState :=
  if d.length < 68 then none
  else some (mkLegacyStarState (d.getD 0 0) (d.getD 1 0) (borshU16At d 2)
    (borshPubkeyAt d 4) (borshPubkeyAt d 36))

/-- Source: the test `res.owner === PublicKey.default` in the legacy
`StarState.retrieve` (`instructions.ts` line 683).  JavaScript `===`
compares objects by reference; `res.owner` is a `PublicKey` freshly
constructed by the deserializer while `PublicKey.default` is a distinct
static instance, so the strict-equality test is false for every decoded
record — and `RUST_DEFAULT_PUBLIC_KEY` is not consulted at all in this
copy. -/
def legacyOwnerStrictEqDefault (_owner : Pubkey) : Bool := false

/-- Source: the legacy `StarState.retrieve` in `instructions.ts`
(lines 647–690): absent/foreign-owned sentinels as in `state.ts`; derived
predicates computed by `(state & 6) === 6` and `state & 4`; the version
check; then the reference-equality owner test (see
`legacyOwnerStrictEqDefault`). -/
def legacyStarStateRetrieve (connection : Connection)
    (nameAccountKey : Pubkey) (programId : Pubkey) :
    Except Err LegacyStarState :=
  match connection.getAccountInfo nameAccountKey with
  | none => .ok (LegacyStarState.empty "Record account does not exist")
  | some accountInfo =>
    if accountInfo.owner ≠ programId then
      .ok (LegacyStarState.empty
        "Record account exists but is not initialized")
    else
      match legacyStarStateDeserialize accountInfo.data with
      | none => .error .borshError
      | some res0 =>
        let res1 :=
          { res0 with
              routingInfo := accountInfo.data.drop StarState.HEADER_LEN
              isPresent := true }
        let res :=
          if res1.state &&& 6 = 6 then { res1 with isAuthorized := true }
          else if res1.state &&& 4 ≠ 0 then
            { res1 with isReadyToAssign := true }
          else res1
        if res.versionMajor < StarState.MIN_VERSION then
          let reason := "Invalid version: " ++ toString res.versionMajor ++
            "; " ++ toString StarState.MIN_VERSION ++ " required."
          .ok { res with invalidReason := reason }
        else if legacyOwnerStrictEqDefault res.owner then
          .ok { res with invalidReason := "Unowned record" }
        else
          .ok { res with isAssignedAndValid := true }

lemma legacyStarStateDeserialize_some (d : List Nat)
    (res0 : LegacyStarState)
    (h : legacyStarStateDeserialize d = some res0) :
    res0 = mkLegacyStarState (d.getD 0 0) (d.getD 1 0) (borshU16At d 2)
      (borshPubkeyAt d 4) (borshPubkeyAt d 36) := by
  unfold legacyStarStateDeserialize at h
  split at h
  · simp at h
  · exact ((Option.some.injEq _ _).mp h).symm

/-- C5 (amended): the current `StarState.retrieve` in `state.ts` yields
the UnownedRecord outcome — `isAssignedAndValid = false` with reason
"Unowned record" — for every fetched program-owned record of valid
version whose stored owner is all-zero under either recognized
zero-address encoding; the legacy copy of `StarState.retrieve` in
`instructions.ts` instead compares the decoded owner to
`PublicKey.default` by JavaScript reference equality, which never holds,
so it never produces the UnownedRecord outcome and marks every
version-valid record — zero owner included — `isAssignedAndValid =
true`. -/
theorem C5_unowned_record (connection : Connection) (key pid : Pubkey)
    (info : AccountInfo) (raw : StarState) (rawL : LegacyStarState)
    (hacc : connection.getAccountInfo key = some info)
    (howner : info.owner = pid) :
    (starStateDeserialize info.data = some raw →
     StarState.MIN_VERSION ≤ raw.versionMajor →
     isDefault raw.owner = true →
     ∃ res, StarState.retrieve connection key pid = .ok res
       ∧ res.isAssignedAndValid = false
       ∧ res.invalidReason = "Unowned record"
       ∧ res.owner = raw.owner)
  ∧ (legacyStarStateDeserialize info.data = some rawL →
     StarState.MIN_VERSION ≤ rawL.versionMajor →
     ∃ res, legacyStarStateRetrieve connection key pid = .ok res
       ∧ res.isAssignedAndValid = true
       ∧ res.invalidReason ≠ "Unowned record"
       ∧ res.owner = rawL.owner) := by
  constructor
  · intro hdec hver hdef
    obtain ⟨hraw, -⟩ := starStateDeserialize_some _ _ hdec
    unfold StarState.retrieve
    rw [hacc]
    dsimp only
    rw [if_neg (by simp [howner])]
    rw [hdec]
    dsimp only
    rw [if_neg (by
      subst hraw
      simp only [mkStarState] at hver ⊢
      omega)]
    rw [if_pos (by
      subst hraw
      simpa [mkStarState] using hdef)]
    subst hraw
    exact ⟨_, rfl, rfl, rfl, rfl⟩
  · intro hdec hver
    have hraw := legacyStarStateDeserialize_some _ _ hdec
    unfold legacyStarStateRetrieve
    rw [hacc]
    dsimp only
    rw [if_neg (by simp [howner])]
    rw [hdec]
    dsimp only
    subst hraw
    rw [if_neg (by
      split_ifs <;>
        (simp only [mkLegacyStarState, StarState.MIN_VERSION] at hver ⊢
         omega))]
    rw [if_neg (by simp [legacyOwnerStrictEqDefault])]
    refine ⟨_, rfl, ?_, ?_, ?_⟩
    · rfl
    · split_ifs <;> simp [mkLegacyStarState]
    · split_ifs <;> rfl

/-- The C5 counterexample connection: a program-owned Name Record with
`versionMajor = 0` and an all-zero owner. -/
def c5Conn : Connection where
  getAccountInfo := fun k =>
    if k = pubkeyDefault then
      some ⟨STARMAP_PROGRAM_ID,
        [0, 1, 0, 0] ++ List.replicate 32 0 ++ List.replicate 32 0⟩
    else none
  getMinimumBalanceForRentExemption := fun _ => 0

/-- The record the C5 counterexample decodes to under `state.ts`. -/
def c5Record : StarState where
  versionMajor := 0
  recordType := 1
  state := 0
  signatory := .raw (List.replicate 32 0)
  owner := .raw (List.replicate 32 0)
  routingInfo := []
  flags :=
    { locked := false
      paid_to_verify := false
      paid_to_assign := false
      contested := false
      disable_notifications := false }
  isPresent := true
  isAuthorized := false
  isReadyToAssign := false
  isAssignedAndValid := false
  invalidReason := "Invalid version: 0; 1 required."

/-- The C5 connection with a version-1 zero-owner record. -/
def c5GoodConn : Connection where
  getAccountInfo := fun k =>
    if k = pubkeyDefault then
      some ⟨STARMAP_PROGRAM_ID,
        [1, 1, 0, 0] ++ List.replicate 32 0 ++ List.replicate 32 0⟩
    else none
  getMinimumBalanceForRentExemption := fun _ => 0

/-- The record the legacy copy decodes `c5GoodConn` to: assigned-and-valid
despite the all-zero owner. -/
def c5LegacyRecord : LegacyStarState where
  versionMajor := 1
  recordType := 1
  state := 0
  signatory := .raw (List.replicate 32 0)
  owner := .raw (List.replicate 32 0)
  routingInfo := []
  isPresent := true
  isAuthorized := false
  isReadyToAssign := false
  isAssignedAndValid := true
  invalidReason := "Need to call StarState.retrieve(...)"

/-- Counterexample for C5 as frozen, against both cited copies: under
`state.ts`, a zero-owner record with `versionMajor = 0` reports the
version error instead of `UnownedRecord` (the version check precedes the
owner check); and under the legacy `instructions.ts` copy, a version-1
zero-owner record comes back `isAssignedAndValid = true` with the owner
test never firing. -/
theorem C5_unowned_record_counterexample :
    (StarState.retrieve c5Conn pubkeyDefault STARMAP_PROGRAM_ID
        = .ok c5Record
      ∧ isDefault c5Record.owner = true
      ∧ c5Record.isAssignedAndValid = false
      ∧ c5Record.invalidReason ≠ "Unowned record"
      ∧ c5Record.invalidReason = "Invalid version: 0; 1 required.")
  ∧ (legacyStarStateRetrieve c5GoodConn pubkeyDefault STARMAP_PROGRAM_ID
        = .ok c5LegacyRecord
      ∧ isDefault c5LegacyRecord.owner = true
      ∧ c5LegacyRecord.isAssignedAndValid = true
      ∧ c5LegacyRecord.invalidReason ≠ "Unowned record") :=
  ⟨⟨by decide, by decide, by decide, by decide, by decide⟩,
   ⟨by decide, by decide, by decide, by decide⟩⟩

/-- Witness for C5 at the concrete version-1 zero-owner record: the
`state.ts` copy yields the unowned outcome, the legacy copy does not. -/
theorem C5_unowned_record_witness :
    (∃ res, StarState.retrieve c5GoodConn pubkeyDefault STARMAP_PROGRAM_ID
        = .ok res
      ∧ res.isAssignedAndValid = false
      ∧ res.invalidReason = "Unowned record")
  ∧ (∃ res, legacyStarStateRetrieve c5GoodConn pubkeyDefault
        STARMAP_PROGRAM_ID = .ok res
      ∧ res.isAssignedAndValid = true
      ∧ res.invalidReason ≠ "Unowned record") := by
  have happ := C5_unowned_record c5GoodConn pubkeyDefault STARMAP_PROGRAM_ID
    ⟨STARMAP_PROGRAM_ID,
      [1, 1, 0, 0] ++ List.replicate 32 0 ++ List.replicate 32 0⟩
    (mkStarState 1 1 0 (.raw (List.replicate 32 0))
      (.raw (List.replicate 32 0)))
    (mkLegacyStarState 1 1 0 (.raw (List.replicate 32 0))
      (.raw (List.replicate 32 0)))
    (by decide) (by decide)
  constructor
  · obtain ⟨res, h1, h2, h3, -⟩ := happ.1 (by decide) (by decide) (by decide)
    exact ⟨res, h1, h2, h3⟩
  · obtain ⟨res, h1, h2, h3, -⟩ := happ.2 (by decide) (by decide)
    exact ⟨res, h1, h2, h3⟩

/-- A remote Config account whose email fee entries differ from its phone
entries (verify: 2000000 vs 1000000; assign: 300 vs 0). -/
def c8ConfigData : List Nat :=
  [1] ++ u32le 1000000 ++ u32le 2000000 ++ u32le 0 ++ u32le 0 ++ u32le 300 ++
    u32le 0 ++ u32le 0 ++ u32le 0 ++ u32le 0 ++ u32le 0 ++ u32le 0 ++
    u32le 0 ++ u32le 0

/-- A connection holding that Config account. -/
def c8Conn : Connection where
  getAccountInfo := fun k =>
    if k = CONFIG_ACCOUNT then some ⟨STARMAP_PROGRAM_ID, c8ConfigData⟩
    else none
  getMinimumBalanceForRentExemption := fun _ => 5000

/-- A connection with no Config account. -/
def c8ConnAbsent : Connection where
  getAccountInfo := fun _ => none
  getMinimumBalanceForRentExemption := fun _ => 5000

/-- The decoded form of `c8ConfigData` (address set by retrieval). -/
def c8Config : ConfigState where
  versionMajor := 1
  name_verify_phone_lamports := 1000000
  name_verify_email_lamports := 2000000
  name_verify_stars_lamports := 0
  name_assign_phone_lamports := 0
  name_assign_email_lamports := 300
  name_assign_stars_lamports := 0
  name_transfer_lamports := 0
  name_delete_lamports := 0
  escrow_create_lamports := 0
  escrow_withdraw_lamports := 0
  escrow_delete_lamports := 0
  notify_phone_lamports := 0
  notify_email_lamports := 0
  address := CONFIG_ACCOUNT

/-- C8 evidence: on an Email-type record with no pre-paid flags and the
`c8Conn` Config table, `getVerifyCostLamports` returns the *phone*
verify+assign total (1000000) although the table's email entries sum to
2000300; with the Config account absent the compiled-in default table is
used (phone verify 1000000 + assign 0), and a set `paid_to_verify` plus
`paid_to_assign` zeroes the fee entirely. -/
theorem C8_verify_cost_fee_table :
    getVerifyCostLamports c8Conn 0
        (mkStarState 1 RecordType.Email 0 pubkeyDefault pubkeyDefault)
      = .ok { fee := 1000000, deposit := 5000 }
  ∧ ConfigState.retrieve c8Conn CONFIG_ACCOUNT STARMAP_PROGRAM_ID
      = .ok (some c8Config)
  ∧ c8Config.name_verify_email_lamports + c8Config.name_assign_email_lamports
      = 2000300
  ∧ (1000000 : Nat) ≠ 2000300
  ∧ getVerifyCostLamports c8ConnAbsent 0
        (mkStarState 1 RecordType.Phone 0 pubkeyDefault pubkeyDefault)
      = .ok { fee := 1000000, deposit := 5000 }
  ∧ getVerifyCostLamports c8ConnAbsent 0
        (mkStarState 1 RecordType.Phone 6 pubkeyDefault pubkeyDefault)
      = .ok { fee := 0, deposit := 5000 } :=
  ⟨by decide, by decide, by decide, by decide, by decide, by decide⟩

/-- The digest used by the C2 chain fixtures. -/
def c2Hash : List Nat := List.replicate 32 7

/-- Escrow-node account bytes: version 1, the given `next_index`,
a zero name account, the given `index` and `prev_index`, a constant
sender byte pattern and a zero mint. -/
def mkEscrowData (nextIndex index prevIndex senderByte : Nat) : List Nat :=
  [1] ++ u32le nextIndex ++ List.replicate 32 0 ++ u32le index ++
    u32le prevIndex ++ List.replicate 32 senderByte ++ List.replicate 32 0

/-- Escrow-root account bytes with the given `next_index`. -/
def mkRootData (nextIndex : Nat) : List Nat :=
  [1] ++ u32le nextIndex ++ List.replicate 32 0

/-- The C2 chain `root → 1 → 2 → U32_MAX` with distinct senders. -/
def c2Conn : Connection where
  getAccountInfo := fun k =>
    if k = escrowKeyOf c2Hash 1 0 then
      some ⟨STARMAP_PROGRAM_ID, mkRootData 1⟩
    else if k = escrowKeyOf c2Hash 1 1 then
      some ⟨STARMAP_PROGRAM_ID, mkEscrowData 2 1 0 5⟩
    else if k = escrowKeyOf c2Hash 1 2 then
      some ⟨STARMAP_PROGRAM_ID, mkEscrowData U32_MAX 2 1 6⟩
    else none
  getMinimumBalanceForRentExemption := fun _ => 0

/-- The C2 chain with node 2 missing (root and node 1 still link to it). -/
def c2ConnMissing2 : Connection where
  getAccountInfo := fun k =>
    if k = escrowKeyOf c2Hash 1 0 then
      some ⟨STARMAP_PROGRAM_ID, mkRootData 1⟩
    else if k = escrowKeyOf c2Hash 1 1 then
      some ⟨STARMAP_PROGRAM_ID, mkEscrowData 2 1 0 5⟩
    else none
  getMinimumBalanceForRentExemption := fun _ => 0

/-- The decoded node 1 of the C2 chain. -/
def c2Node1 : EscrowState where
  versionMajor := 1
  next_index := 2
  name_account := .raw (List.replicate 32 0)
  index := 1
  prev_index := 0
  sender := .raw (List.replicate 32 5)
  mint := .raw (List.replicate 32 0)
  address := escrowKeyOf c2Hash 1 1

/-- The decoded node 2 of the C2 chain. -/
def c2Node2 : EscrowState where
  versionMajor := 1
  next_index := U32_MAX
  name_account := .raw (List.replicate 32 0)
  index := 2
  prev_index := 1
  sender := .raw (List.replicate 32 6)
  mint := .raw (List.replicate 32 0)
  address := escrowKeyOf c2Hash 1 2

/-- C2 evidence: over the chain `[1 → 2 → U32_MAX]`, the `bindings.ts`
`getEscrowAccounts` returns exactly the two nodes in ascending index
order, a sender filter keeps exactly the matching node, and a missing
linked node raises the corrupt-chain error; but the `utils.ts` copy of
`getEscrowAccounts` — which advances with `index += 1` instead of
following `next_index` — raises the corrupt-chain error on this intact
chain (at the absent index 3) instead of returning the two nodes. -/
theorem C2_list_escrows_walk :
    getEscrowAccounts c2Conn c2Hash 1 none 5 = .ok [c2Node1, c2Node2]
  ∧ getEscrowAccounts c2Conn c2Hash 1 (some (.raw (List.replicate 32 5))) 5
      = .ok [c2Node1]
  ∧ getEscrowAccounts c2ConnMissing2 c2Hash 1 none 5 = .error .corruptChain
  ∧ utilsGetEscrowAccounts c2Conn c2Hash 1 5 = .error .corruptChain :=
  ⟨by decide, by decide, by decide, by decide⟩

lemma getNextLoop_first_fit (connection : Connection) (hashedName : List Nat)
    (rt : Nat) (node : Nat → EscrowState) (c : Nat)
    (hc2 : 2 ≤ c) (hcb : c < 2 ^ 32)
    (hnodes : ∀ i, 1 ≤ i → i < c →
      nodeResult connection hashedName rt i = .ok (some (node i)))
    (hcont : ∀ i, 1 ≤ i → i + 1 < c → (node i).next_index ≤ i + 1)
    (hstop : c < (node (c - 1)).next_index) :
    ∀ fuel start, 1 ≤ start → start < c → c - start ≤ fuel →
      getNextAvailableEscrowAccountLoop connection hashedName rt fuel start
        = .ok (EscrowState.empty c (node (c - 1)).index
            (node (c - 1)).next_index (escrowKeyOf hashedName rt c)) := by
  intro fuel
  induction fuel with
  | zero =>
    intro start h1 h2 h3
    omega
  | succ f ih =>
    intro start h1 h2 h3
    have hn := hnodes start h1 h2
    unfold nodeResult at hn
    unfold getNextAvailableEscrowAccountLoop
    rw [getEscrowAccountKey_eq hashedName rt start (by omega)]
    simp only [Bind.bind, Except.bind, hn]
    rw [getEscrowAccountKey_eq hashedName rt (start + 1) (by omega)]
    dsimp only
    by_cases hend : start + 1 = c
    · have hs : start = c - 1 := by omega
      subst hs
      rw [if_pos (by omega)]
      congr 1
      rw [show c - 1 + 1 = c by omega]
    · rw [if_neg (by
        have := hcont start h1 (by omega)
        omega)]
      exact ih (start + 1) (by omega) (by omega) (by omega)

lemma getNextLoop_corrupt (connection : Connection) (hashedName : List Nat)
    (rt : Nat) (node : Nat → EscrowState) (k : Nat)
    (hk1 : 1 ≤ k) (hkb : k < 2 ^ 32)
    (hnodes : ∀ i, 1 ≤ i → i < k →
      nodeResult connection hashedName rt i = .ok (some (node i))
      ∧ (node i).next_index ≤ i + 1)
    (hmiss : nodeResult connection hashedName rt k = .ok none) :
    ∀ fuel start, 1 ≤ start → start ≤ k → k - start < fuel →
      getNextAvailableEscrowAccountLoop connection hashedName rt fuel start
        = .error .corruptChain := by
  intro fuel
  induction fuel with
  | zero =>
    intro start h1 h2 h3
    omega
  | succ f ih =>
    intro start h1 h2 h3
    unfold getNextAvailableEscrowAccountLoop
    rw [getEscrowAccountKey_eq hashedName rt start (by omega)]
    by_cases hend : start = k
    · subst hend
      unfold nodeResult at hmiss
      simp only [Bind.bind, Except.bind, hmiss]
    · obtain ⟨hn, hle⟩ := hnodes start h1 (by omega)
      unfold nodeResult at hn
      simp only [Bind.bind, Except.bind, hn]
      rw [getEscrowAccountKey_eq hashedName rt (start + 1) (by omega)]
      dsimp only
      rw [if_neg (by omega)]
      exact ih (start + 1) (by omega) (by omega) (by omega)

/-- C1: `getNextAvailableEscrowAccount` returns the first free slot of
the chain: with no root it returns `{prev: 0, curr: 1, next: U32_MAX}`;
with a root pointing past index 1 it returns
`{prev: 0, curr: 1, next: root.next_index}`; walking from index 1 it
returns `{prev: p.index, curr: c, next: p.next_index}` for the first
already-existing node `p` (at position `c - 1`) whose recorded
`next_index` strictly exceeds the following candidate index `c`; and a
node expected by the walk but absent raises the corrupt-chain error. -/
theorem C1_get_next_available_first_fit (connection : Connection)
    (hashedName : List Nat) (rt fuel : Nat) :
    (rootResult connection hashedName rt = .ok none →
      getNextAvailableEscrowAccount connection hashedName rt fuel
        = .ok (EscrowState.empty 1 0 U32_MAX (escrowKeyOf hashedName rt 1)))
  ∧ (∀ root, rootResult connection hashedName rt = .ok (some root) →
      1 < root.next_index →
      getNextAvailableEscrowAccount connection hashedName rt fuel
        = .ok (EscrowState.empty 1 0 root.next_index
            (escrowKeyOf hashedName rt 1)))
  ∧ (∀ root (node : Nat → EscrowState) c,
      rootResult connection hashedName rt = .ok (some root) →
      root.next_index ≤ 1 → 2 ≤ c → c < 2 ^ 32 →
      (∀ i, 1 ≤ i → i < c →
        nodeResult connection hashedName rt i = .ok (some (node i))) →
      (∀ i, 1 ≤ i → i + 1 < c → (node i).next_index ≤ i + 1) →
      c < (node (c - 1)).next_index → c ≤ fuel →
      getNextAvailableEscrowAccount connection hashedName rt fuel
        = .ok (EscrowState.empty c (node (c - 1)).index
            (node (c - 1)).next_index (escrowKeyOf hashedName rt c)))
  ∧ (∀ root (node : Nat → EscrowState) k,
      rootResult connection hashedName rt = .ok (some root) →
      root.next_index ≤ 1 → 1 ≤ k → k < 2 ^ 32 →
      (∀ i, 1 ≤ i → i < k →
        nodeResult connection hashedName rt i = .ok (some (node i))
        ∧ (node i).next_index ≤ i + 1) →
      nodeResult connection hashedName rt k = .ok none → k ≤ fuel →
      getNextAvailableEscrowAccount connection hashedName rt fuel
        = .error .corruptChain) := by
  refine ⟨?_, ?_, ?_, ?_⟩
  · intro hroot
    unfold getNextAvailableEscrowAccount
    rw [getEscrowRootAccount_eq, hroot]
    simp only [Bind.bind, Except.bind]
    rw [getEscrowAccountKey_eq hashedName rt 1 (by norm_num)]
    rfl
  · intro root hroot hgt
    unfold getNextAvailableEscrowAccount
    rw [getEscrowRootAccount_eq, hroot]
    simp only [Bind.bind, Except.bind]
    rw [if_pos hgt]
    rw [getEscrowAccountKey_eq hashedName rt 1 (by norm_num)]
    rfl
  · intro root node c hroot hle hc2 hcb hnodes hcont hstop hfuel
    unfold getNextAvailableEscrowAccount
    rw [getEscrowRootAccount_eq, hroot]
    simp only [Bind.bind, Except.bind]
    rw [if_neg (by omega)]
    exact getNextLoop_first_fit connection hashedName rt node c hc2 hcb hnodes
      hcont hstop fuel 1 (by omega) (by omega) (by omega)
  · intro root node k hroot hle hk1 hkb hnodes hmiss hfuel
    unfold getNextAvailableEscrowAccount
    rw [getEscrowRootAccount_eq, hroot]
    simp only [Bind.bind, Except.bind]
    rw [if_neg (by omega)]
    exact getNextLoop_corrupt connection hashedName rt node k hk1 hkb hnodes
      hmiss fuel 1 (by omega) (by omega) (by omega)

/-- The C1 witness chain: a root pointing at index 1 and a single node 1
whose `next_index` is the terminal sentinel. -/
def c1Conn : Connection where
  getAccountInfo := fun k =>
    if k = escrowKeyOf c2Hash 2 0 then
      some ⟨STARMAP_PROGRAM_ID, mkRootData 1⟩
    else if k = escrowKeyOf c2Hash 2 1 then
      some ⟨STARMAP_PROGRAM_ID, mkEscrowData U32_MAX 1 0 3⟩
    else none
  getMinimumBalanceForRentExemption := fun _ => 0

/-- The decoded single node of the C1 witness chain. -/
def c1Node1 : EscrowState where
  versionMajor := 1
  next_index := U32_MAX
  name_account := .raw (List.replicate 32 0)
  index := 1
  prev_index := 0
  sender := .raw (List.replicate 32 3)
  mint := .raw (List.replicate 32 0)
  address := escrowKeyOf c2Hash 2 1

/-- Witness for C1: on the chain whose only node is index 1 with
`next_index = U32_MAX`, the returned slot is
`{prev: 1, curr: 2, next: U32_MAX}`. -/
theorem C1_get_next_available_first_fit_witness :
    getNextAvailableEscrowAccount c1Conn c2Hash 2 5
      = .ok (EscrowState.empty 2 1 U32_MAX (escrowKeyOf c2Hash 2 2)) := by
  have happ := (C1_get_next_available_first_fit c1Conn c2Hash 2 5).2.2.1
    ⟨1, 1, .raw (List.replicate 32 0)⟩ (fun _ => c1Node1) 2
    (by decide) (by decide) (by decide) (by decide)
    (by
      intro i h1 h2
      have hi : i = 1 := by omega
      subst hi
      decide)
    (by
      intro i h1 h2
      omega)
    (by decide) (by decide)
  exact happ

lemma getNextLoop_valid (connection : Connection) (hashedName : List Nat)
    (rt : Nat)
    (hcons : ∀ i st, nodeResult connection hashedName rt i = .ok (some st) →
      st.index = i) :
    ∀ fuel start slot, 1 ≤ start →
      getNextAvailableEscrowAccountLoop connection hashedName rt fuel start
        = .ok slot →
      1 ≤ slot.index ∧ slot.prev_index ≤ slot.index ∧
        slot.index ≤ slot.next_index := by
  intro fuel
  induction fuel with
  | zero =>
    intro start slot h1 h
    exact absurd h (by simp [getNextAvailableEscrowAccountLoop])
  | succ f ih =>
    intro start slot h1 h
    unfold getNextAvailableEscrowAccountLoop at h
    cases hk : getEscrowAccountKey hashedName rt start with
    | error e =>
      rw [hk] at h
      exact absurd h (by simp [Bind.bind, Except.bind])
    | ok k =>
      rw [hk] at h
      obtain ⟨hb, hkeq⟩ := getEscrowAccountKey_ok hashedName rt start k hk
      subst hkeq
      simp only [Bind.bind, Except.bind] at h
      cases hr : EscrowState.retrieve connection
          (escrowKeyOf hashedName rt start) STARMAP_PROGRAM_ID with
      | error e =>
        rw [hr] at h
        exact absurd h (by simp)
      | ok st? =>
        rw [hr] at h
        cases st? with
        | none => exact absurd h (by simp)
        | some st =>
          have hst : st.index = start := hcons start st hr
          dsimp only at h
          cases hk2 : getEscrowAccountKey hashedName rt (start + 1) with
          | error e =>
            rw [hk2] at h
            exact absurd h (by simp)
          | ok k2 =>
            rw [hk2] at h
            dsimp only at h
            by_cases hcond : st.next_index > start + 1
            · rw [if_pos hcond] at h
              have hslot := (Except.ok.injEq _ _).mp h
              subst hslot
              refine ⟨by simp [EscrowState.empty], ?_, ?_⟩
              · simp [EscrowState.empty]
                omega
              · simp [EscrowState.empty]
                omega
            · rw [if_neg hcond] at h
              exact ih (start + 1) slot (by omega) h

/-- C9: over any chain state whose stored nodes carry the index they are
stored at, every slot computed by `getNextAvailableEscrowAccount`
satisfies the triple validation of `createEscrowAccount`
(`index ≥ 1`, `prev_index ≤ index`, `next_index ≥ index`), so passing the
computed slot to `createEscrowAccount` can never produce the
`InvalidChainTriple` error. -/
theorem C9_computed_slot_passes_validation (connection : Connection)
    (hashedName : List Nat) (rt fuel : Nat) (slot : EscrowState)
    (hcons : ∀ i st, nodeResult connection hashedName rt i = .ok (some st) →
      st.index = i)
    (hok : getNextAvailableEscrowAccount connection hashedName rt fuel
      = .ok slot) :
    (1 ≤ slot.index ∧ slot.prev_index ≤ slot.index ∧
      slot.index ≤ slot.next_index)
  ∧ ∀ (name : JsString) (payerKey mint : Pubkey),
      createEscrowAccount name rt payerKey slot mint
        ≠ .error .invalidChainTriple := by
  have main : 1 ≤ slot.index ∧ slot.prev_index ≤ slot.index ∧
      slot.index ≤ slot.next_index := by
    unfold getNextAvailableEscrowAccount at hok
    rw [getEscrowRootAccount_eq] at hok
    cases hroot : rootResult connection hashedName rt with
    | error e =>
      rw [hroot] at hok
      exact absurd hok (by simp [Bind.bind, Except.bind])
    | ok root? =>
      rw [hroot] at hok
      simp only [Bind.bind, Except.bind] at hok
      cases root? with
      | none =>
        rw [getEscrowAccountKey_eq hashedName rt 1 (by norm_num)] at hok
        dsimp only at hok
        have hslot := (Except.ok.injEq _ _).mp hok
        subst hslot
        refine ⟨by simp [EscrowState.empty], by simp [EscrowState.empty], ?_⟩
        simp [EscrowState.empty, U32_MAX]
      | some root =>
        dsimp only at hok
        by_cases hgt : root.next_index > 1
        · rw [if_pos hgt] at hok
          rw [getEscrowAccountKey_eq hashedName rt 1 (by norm_num)] at hok
          dsimp only at hok
          have hslot := (Except.ok.injEq _ _).mp hok
          subst hslot
          refine ⟨by simp [EscrowState.empty], by simp [EscrowState.empty], ?_⟩
          simp [EscrowState.empty]
          omega
        · rw [if_neg hgt] at hok
          exact getNextLoop_valid connection hashedName rt hcons fuel 1 slot
            (by omega) hok
  refine ⟨main, ?_⟩
  intro name payerKey mint hcontra
  rw [createEscrowAccount_invalid_iff] at hcontra
  unfold escrowTripleInvalid at hcontra
  omega

/-- Witness for C9: over the empty chain, the computed slot
`(1, 0, U32_MAX)` is accepted by `createEscrowAccount`'s validation. -/
theorem C9_computed_slot_passes_validation_witness :
    createEscrowAccount [97] 3 pubkeyDefault
        (EscrowState.empty 1 0 U32_MAX (escrowKeyOf [] 3 1)) pubkeyDefault
      ≠ .error .invalidChainTriple := by
  have hcons : ∀ i st,
      nodeResult (Connection.mk (fun _ => none) (fun _ => 0)) [] 3 i
        = .ok (some st) → st.index = i := by
    intro i st h
    simp [nodeResult, EscrowState.retrieve] at h
  have hok : getNextAvailableEscrowAccount
      (Connection.mk (fun _ => none) (fun _ => 0)) [] 3 5
      = .ok (EscrowState.empty 1 0 U32_MAX (escrowKeyOf [] 3 1)) := by decide
  exact (C9_computed_slot_passes_validation
    (Connection.mk (fun _ => none) (fun _ => 0)) [] 3 5
    (EscrowState.empty 1 0 U32_MAX (escrowKeyOf [] 3 1)) hcons hok).2
    [97] pubkeyDefault pubkeyDefault

/-- A connection that serves byte-valued account data (every data entry
below 256), as a real RPC endpoint does. -/
def WellFormedConn (connection : Connection) : Prop :=
  ∀ k info, connection.getAccountInfo k = some info → ∀ b ∈ info.data, b < 256

lemma getD_lt_256 (d : List Nat) (h : ∀ b ∈ d, b < 256) (j : Nat) :
    d.getD j 0 < 256 := by
  rcases Nat.lt_or_ge j d.length with hj | hj
  · rw [List.getD_eq_getElem d 0 hj]
    exact h _ (List.getElem_mem hj)
  · rw [List.getD_eq_default d 0 hj]
    norm_num

lemma borshU32At_lt (d : List Nat) (i : Nat) (h : ∀ b ∈ d, b < 256) :
    borshU32At d i < 2 ^ 32 := by
  unfold borshU32At
  have h0 := getD_lt_256 d h i
  have h1 := getD_lt_256 d h (i + 1)
  have h2 := getD_lt_256 d h (i + 2)
  have h3 := getD_lt_256 d h (i + 3)
  omega

lemma escrowRetrieve_bounds (connection : Connection) (key : Pubkey)
    (st : EscrowState) (hwf : WellFormedConn connection)
    (h : EscrowState.retrieve connection key STARMAP_PROGRAM_ID
      = .ok (some st)) :
    st.next_index < 2 ^ 32 ∧ st.index < 2 ^ 32 ∧ st.prev_index < 2 ^ 32 := by
  unfold EscrowState.retrieve at h
  cases hai : connection.getAccountInfo key with
  | none =>
    rw [hai] at h
    exact absurd h (by simp)
  | some info =>
    rw [hai] at h
    dsimp only at h
    split at h
    · exact absurd h (by simp)
    · cases hdec : escrowStateDeserialize info.data with
      | none =>
        rw [hdec] at h
        exact absurd h (by simp)
      | some rec =>
        rw [hdec] at h
        have hst := (Option.some.injEq _ _).mp ((Except.ok.injEq _ _).mp h)
        have hbytes := hwf key info hai
        unfold escrowStateDeserialize at hdec
        split at hdec
        · exact absurd hdec (by simp)
        · have hrec := (Option.some.injEq _ _).mp hdec
          subst hst
          subst hrec
          exact ⟨borshU32At_lt _ _ hbytes, borshU32At_lt _ _ hbytes,
            borshU32At_lt _ _ hbytes⟩

lemma rootRetrieve_bound (connection : Connection) (key : Pubkey)
    (root : EscrowRootState) (hwf : WellFormedConn connection)
    (h : EscrowRootState.retrieve connection key STARMAP_PROGRAM_ID
      = .ok (some root)) : root.next_index < 2 ^ 32 := by
  unfold EscrowRootState.retrieve at h
  cases hai : connection.getAccountInfo key with
  | none =>
    rw [hai] at h
    exact absurd h (by simp)
  | some info =>
    rw [hai] at h
    dsimp only at h
    split at h
    · exact absurd h (by simp)
    · cases hdec : escrowRootDeserialize info.data with
      | none =>
        rw [hdec] at h
        exact absurd h (by simp)
      | some rec =>
        rw [hdec] at h
        have hst := (Option.some.injEq _ _).mp ((Except.ok.injEq _ _).mp h)
        have hbytes := hwf key info hai
        unfold escrowRootDeserialize at hdec
        split at hdec
        · exact absurd hdec (by simp)
        · have hrec := (Option.some.injEq _ _).mp hdec
          subst hst
          subst hrec
          exact borshU32At_lt _ _ hbytes

lemma getEscrowAccountKey_error_ge (hashedName : List Nat) (rt i : Nat)
    (e : Err) (h : getEscrowAccountKey hashedName rt i = .error e) :
    2 ^ 32 ≤ i := by
  by_contra hc
  push_neg at hc
  rw [getEscrowAccountKey_eq hashedName rt i hc] at h
  exact absurd h (by simp)

lemma utilsLoop_key_error (connection : Connection) (hashedName : List Nat)
    (rt start : Nat) (e : Err)
    (hk : getEscrowAccountKey hashedName rt start = .error e) :
    ∀ fuel p, utilsGetNextAvailableEscrowAccountLoop connection hashedName rt
      fuel start ≠ .ok p := by
  intro fuel p h
  cases fuel with
  | zero => exact absurd h (by simp [utilsGetNextAvailableEscrowAccountLoop])
  | succ f =>
    unfold utilsGetNextAvailableEscrowAccountLoop at h
    rw [hk] at h
    exact absurd h (by simp [Bind.bind, Except.bind])

lemma c10_loop_equiv (connection : Connection) (hashedName : List Nat)
    (rt : Nat) (hwf : WellFormedConn connection) :
    ∀ fuel start,
      (∀ st, getNextAvailableEscrowAccountLoop connection hashedName rt fuel
          start = .ok st →
        ∃ k, utilsGetNextAvailableEscrowAccountLoop connection hashedName rt
          fuel start
          = .ok (EscrowState.empty st.index st.prev_index st.next_index
              pubkeyDefault, k))
    ∧ (∀ p, utilsGetNextAvailableEscrowAccountLoop connection hashedName rt
          fuel start = .ok p →
        ∃ st, getNextAvailableEscrowAccountLoop connection hashedName rt fuel
            start = .ok st
          ∧ st.index = p.1.index ∧ st.prev_index = p.1.prev_index
          ∧ st.next_index = p.1.next_index) := by
  intro fuel
  induction fuel with
  | zero =>
    intro start
    constructor
    · intro st h
      exact absurd h (by simp [getNextAvailableEscrowAccountLoop])
    · intro p h
      exact absurd h (by simp [utilsGetNextAvailableEscrowAccountLoop])
  | succ f ih =>
    intro start
    unfold getNextAvailableEscrowAccountLoop
      utilsGetNextAvailableEscrowAccountLoop
    cases hk : getEscrowAccountKey hashedName rt start with
    | error e =>
      constructor
      · intro st h
        exact absurd h (by simp [Bind.bind, Except.bind])
      · intro p h
        exact absurd h (by simp [Bind.bind, Except.bind])
    | ok k =>
      simp only [Bind.bind, Except.bind]
      cases hr : EscrowState.retrieve connection k STARMAP_PROGRAM_ID with
      | error e =>
        constructor
        · intro st h
          exact absurd h (by simp)
        · intro p h
          exact absurd h (by simp)
      | ok st? =>
        cases st? with
        | none =>
          constructor
          · intro st h
            exact absurd h (by simp)
          · intro p h
            exact absurd h (by simp)
        | some st0 =>
          dsimp only
          obtain ⟨hb0, -, -⟩ := escrowRetrieve_bounds connection k st0 hwf hr
          cases hk2 : getEscrowAccountKey hashedName rt (start + 1) with
          | error e =>
            have hge := getEscrowAccountKey_error_ge hashedName rt (start + 1)
              e hk2
            have hcond : ¬ st0.next_index > start + 1 := by omega
            constructor
            · intro st h
              exact absurd h (by simp)
            · intro p h
              rw [if_neg hcond] at h
              exact absurd h (utilsLoop_key_error connection hashedName rt
                (start + 1) e hk2 f p)
          | ok k2 =>
            dsimp only
            by_cases hcond : st0.next_index > start + 1
            · rw [if_pos hcond, if_pos hcond]
              constructor
              · intro st h
                have hst := (Except.ok.injEq _ _).mp h
                subst hst
                exact ⟨k, rfl⟩
              · intro p h
                have hp := (Except.ok.injEq _ _).mp h
                subst hp
                exact ⟨_, rfl, rfl, rfl, rfl⟩
            · rw [if_neg hcond, if_neg hcond]
              exact ih (start + 1)

/-- C10 (amended): for every chain state served by a byte-valued
connection, the two exported insertion-slot searches — the `utils.ts` copy
returning an `[EscrowState, PublicKey]` pair and the `bindings.ts` copy
returning an `EscrowState` carrying its address — compute the same
insertion triple `(index, prev_index, next_index)`; their derived
addresses, however, are not in general the same (see the
counterexample). -/
theorem C10_insertion_slot_copies_same_triple (connection : Connection)
    (hashedName : List Nat) (rt fuel : Nat)
    (hwf : WellFormedConn connection) :
    (∀ st, getNextAvailableEscrowAccount connection hashedName rt fuel
        = .ok st →
      ∃ k, utilsGetNextAvailableEscrowAccount connection hashedName rt fuel
        = .ok (EscrowState.empty st.index st.prev_index st.next_index
            pubkeyDefault, k))
  ∧ (∀ p, utilsGetNextAvailableEscrowAccount connection hashedName rt fuel
        = .ok p →
      ∃ st, getNextAvailableEscrowAccount connection hashedName rt fuel
          = .ok st
        ∧ st.index = p.1.index ∧ st.prev_index = p.1.prev_index
        ∧ st.next_index = p.1.next_index) := by
  unfold getNextAvailableEscrowAccount utilsGetNextAvailableEscrowAccount
  rw [getEscrowRootAccount_eq]
  cases hroot : rootResult connection hashedName rt with
  | error e =>
    constructor
    · intro st h
      exact absurd h (by simp [Bind.bind, Except.bind])
    · intro p h
      exact absurd h (by simp [Bind.bind, Except.bind])
  | ok root? =>
    simp only [Bind.bind, Except.bind]
    cases root? with
    | none =>
      rw [getEscrowAccountKey_eq hashedName rt 1 (by norm_num)]
      dsimp only
      constructor
      · intro st h
        have hst := (Except.ok.injEq _ _).mp h
        subst hst
        exact ⟨escrowKeyOf hashedName rt 1, rfl⟩
      · intro p h
        have hp := (Except.ok.injEq _ _).mp h
        subst hp
        exact ⟨_, rfl, rfl, rfl, rfl⟩
    | some root =>
      dsimp only
      have hbound := rootRetrieve_bound connection
        (escrowKeyOf hashedName rt 0) root hwf hroot
      by_cases hgt : root.next_index > 1
      · rw [if_pos hgt, if_pos hgt]
        rw [getEscrowAccountKey_eq hashedName rt 1 (by norm_num),
          getEscrowAccountKey_eq hashedName rt root.next_index hbound]
        dsimp only
        constructor
        · intro st h
          have hst := (Except.ok.injEq _ _).mp h
          subst hst
          exact ⟨escrowKeyOf hashedName rt root.next_index, rfl⟩
        · intro p h
          have hp := (Except.ok.injEq _ _).mp h
          subst hp
          exact ⟨_, rfl, rfl, rfl, rfl⟩
      · rw [if_neg hgt, if_neg hgt]
        exact c10_loop_equiv connection hashedName rt hwf fuel 1

/-- The C10 counterexample chain: a root whose successor is index 5. -/
def c10Conn : Connection where
  getAccountInfo := fun k =>
    if k = escrowKeyOf c2Hash 1 0 then
      some ⟨STARMAP_PROGRAM_ID, mkRootData 5⟩
    else none
  getMinimumBalanceForRentExemption := fun _ => 0

/-- Counterexample for C10 as frozen: on the chain whose root points at
index 5, both copies compute the insertion triple `(1, 0, 5)`, but the
`bindings.ts` copy carries the address derived at index 1 (the slot being
inserted) while the `utils.ts` copy pairs the slot with the address
derived at index 5 — two different addresses. -/
theorem C10_insertion_slot_copies_counterexample :
    getNextAvailableEscrowAccount c10Conn c2Hash 1 3
      = .ok (EscrowState.empty 1 0 5 (escrowKeyOf c2Hash 1 1))
  ∧ utilsGetNextAvailableEscrowAccount c10Conn c2Hash 1 3
      = .ok (EscrowState.empty 1 0 5 pubkeyDefault, escrowKeyOf c2Hash 1 5)
  ∧ escrowKeyOf c2Hash 1 5 ≠
      (EscrowState.empty 1 0 5 (escrowKeyOf c2Hash 1 1)).address :=
  ⟨by decide, by decide, by decide⟩

/-- Witness for C10 on the `c10Conn` chain: the forward direction of the
amended theorem, with the well-formed-bytes hypothesis discharged. -/
theorem C10_insertion_slot_copies_same_triple_witness :
    ∃ k, utilsGetNextAvailableEscrowAccount c10Conn c2Hash 1 3
      = .ok (EscrowState.empty 1 0 5 pubkeyDefault, k) := by
  have hwf : WellFormedConn c10Conn := by
    intro k info h b hb
    by_cases hk : k = escrowKeyOf c2Hash 1 0
    · rw [show c10Conn.getAccountInfo k =
          some ⟨STARMAP_PROGRAM_ID, mkRootData 5⟩ by
            simp [c10Conn, hk]] at h
      have hinfo := (Option.some.injEq _ _).mp h
      subst hinfo
      revert hb
      have : ∀ b ∈ mkRootData 5, b < 256 := by decide
      exact this b
    · rw [show c10Conn.getAccountInfo k = none by simp [c10Conn, hk]] at h
      exact absurd h (by simp)
  have happ := (C10_insertion_slot_copies_same_triple c10Conn c2Hash 1 3
    hwf).1 (EscrowState.empty 1 0 5 (escrowKeyOf c2Hash 1 1)) (by decide)
  exact happ

end Starmap
